import Mathlib

/-!
Verification of the Monte Carlo equity-simulation engine of the
UltimateTexasHoldemPokerAdvisor repository.

The definitions below are a shallow embedding of `src/utils/monteCarlo.ts`
(the batched implementation: `generateDeck`, `shuffleArray`,
`processIteration`, `processBatch`, `monteCarloSimulation`) together with
the legacy variant of the same module that carries a `confidence` field
(`calculateConfidence`, embedded in namespace `V3`).

Modelling conventions:
* JavaScript card strings stay `String`; arrays become `List`.
* `Math.random()` draws are an oracle `rand : ℕ → ℕ`; the index
  `Math.floor(Math.random() * (i + 1))` becomes `rand i % (i + 1)`, which
  has exactly the same range `0 … i`.
* The third-party `pokersolver` calls `Hand.solve` / `Hand.winners` are
  oracles returning `Except Unit _`; an `error` models a thrown exception,
  matching the `try`/`catch` of the source.  `Hand` objects are modelled by
  identifiers (`ℕ`); the JavaScript identity test `===` on such objects is
  equality of identifiers.
* JavaScript `number` percentages are modelled in `ℚ`.
* `throw new Error(msg)` becomes `Except.error msg`, keeping the source's
  message strings.
-/

/-- Decidable equality for `Except`, used to evaluate the embedded
simulation on concrete inputs. -/
instance instDecidableEqExcept {ε α : Type _} [DecidableEq ε] [DecidableEq α] :
    DecidableEq (Except ε α)
  | .error a, .error b =>
    if h : a = b then .isTrue (congrArg Except.error h)
    else .isFalse fun hc => h (by cases hc; rfl)
  | .error _, .ok _ => .isFalse fun hc => Except.noConfusion hc
  | .ok _, .error _ => .isFalse fun hc => Except.noConfusion hc
  | .ok a, .ok b =>
    if h : a = b then .isTrue (congrArg Except.ok h)
    else .isFalse fun hc => h (by cases hc; rfl)

namespace MonteCarlo

/-- Result of one `pokersolver` call, an object identifier; an `error`
models a thrown exception. -/
abbrev SolveFn := List String → Except Unit Nat

/-- `Hand.winners` oracle: from a list of hand objects, the winning ones. -/
abbrev WinnersFn := List Nat → Except Unit (List Nat)

/-- Per-call random oracle: `rand g k` is the `k`-th `Math.random()` draw of
global iteration `g`. -/
abbrev RandFn := Nat → Nat → Nat

/-- All possible ranks, from `const allRanks` in the source. -/
def allRanks : List String := ["2","3","4","5","6","7","8","9","10","J","Q","K","A"]

/-- All possible suits, from `const allSuits` in the source. -/
def allSuits : List String := ["h","d","s","c"]

/-- The result interface of `monteCarloSimulation`
(`interface SimulationResult`: `win`, `tie`, `lose`, `iterations`). -/
structure SimulationResult where
  win : ℚ
  tie : ℚ
  lose : ℚ
  iterations : Nat
deriving DecidableEq, Repr

/-- Replace the first occurrence of `"10"` by `"T"` in a character list
(JavaScript `String.prototype.replace` with a string pattern replaces only
the first occurrence). -/
def replaceTenAux : List Char → List Char
  | [] => []
  | '1' :: '0' :: rest => 'T' :: rest
  | c :: rest => c :: replaceTenAux rest

/-- `convertCardForSolver`: `card.replace('10', 'T')`. -/
def convertCardForSolver (card : String) : String :=
  ⟨replaceTenAux card.data⟩

/-- `generateDeck`: `allRanks.flatMap(r => allSuits.map(s => r + s))`. -/
def generateDeck : List String :=
  allRanks.flatMap fun r => allSuits.map fun s => r ++ s

/-- The destructuring swap
`[shuffled[i], shuffled[j]] = [shuffled[j], shuffled[i]]`; identity when an
index is out of range (in the source both indices are always in range). -/
def swapList (l : List α) (i j : Nat) : List α :=
  match l[i]?, l[j]? with
  | some a, some b => (l.set i b).set j a
  | _, _ => l

/-- The loop of `shuffleArray`: iterate `i` from `n-1` down to `1`, swapping
index `i` with index `rand i % (i + 1)`, the model of
`Math.floor(Math.random() * (i + 1))`. -/
def fyLoop (rand : Nat → Nat) : List α → Nat → List α
  | l, 0 => l
  | l, i + 1 => fyLoop rand (swapList l (i + 1) (rand (i + 1) % (i + 2))) i

/-- `shuffleArray`: Fisher–Yates shuffle on a copy of the input array. -/
def shuffleArray (rand : Nat → Nat) (array : List α) : List α :=
  fyLoop rand array (array.length - 1)

/-- Outcome of one iteration (`'win' | 'tie' | 'lose'`). -/
inductive IterResult where
  | win
  | tie
  | lose
deriving DecidableEq, Repr

/-- Local binding `dealerHole = shuffled.slice(0, 2)` of `processIteration`. -/
def dealerHole (shuffled : List String) : List String :=
  shuffled.take 2

/-- Local binding `additionalCommunity = shuffled.slice(2, 2 + communityNeeded)`
of `processIteration`. -/
def additionalCommunity (communityNeeded : Nat) (shuffled : List String) : List String :=
  (shuffled.drop 2).take communityNeeded

/-- Local binding `fullCommunity = [...existingCommunity, ...additionalCommunity]`
of `processIteration`. -/
def fullCommunity (existingCommunity : List String) (communityNeeded : Nat)
    (shuffled : List String) : List String :=
  existingCommunity ++ additionalCommunity communityNeeded shuffled

/-- Local binding `playerCards = [...playerHole, ...fullCommunity]` of
`processIteration`. -/
def playerCards (playerHole existingCommunity : List String) (communityNeeded : Nat)
    (shuffled : List String) : List String :=
  playerHole ++ fullCommunity existingCommunity communityNeeded shuffled

/-- Local binding `dealerCards = [...dealerHole, ...fullCommunity]` of
`processIteration`. -/
def dealerCards (existingCommunity : List String) (communityNeeded : Nat)
    (shuffled : List String) : List String :=
  dealerHole shuffled ++ fullCommunity existingCommunity communityNeeded shuffled

/-- The winner-comparison tail of `processIteration`:
`winners.length === 2` is a tie, otherwise `winners[0] === playerHand`
decides (an empty winner list falls to `lose`, as `undefined === x` is
false). -/
def classifyWinners (playerHand : Nat) (ws : List Nat) : IterResult :=
  if ws.length = 2 then .tie
  else if ws.head? = some playerHand then .win
  else .lose

/-- `processIteration`: deal the dealer hole cards and missing community
cards from the shuffled deck, build both 7-card pools, solve and compare
them; `none` models the `catch` branch (a thrown exception anywhere in the
body). -/
def processIteration (solve : SolveFn) (winners : WinnersFn)
    (playerHole existingCommunity : List String) (communityNeeded : Nat)
    (shuffled : List String) : Option IterResult :=
  let body : Except Unit IterResult := do
    let playerHand ← solve
      ((playerCards playerHole existingCommunity communityNeeded shuffled).map
        convertCardForSolver)
    let dealerHand ← solve
      ((dealerCards existingCommunity communityNeeded shuffled).map
        convertCardForSolver)
    let ws ← winners [playerHand, dealerHand]
    pure (classifyWinners playerHand ws)
  match body with
  | .ok r => some r
  | .error _ => none

/-- Counters of `processBatch` (`wins`, `ties`, `losses`, `processed`). -/
structure BatchTotals where
  wins : Nat
  ties : Nat
  losses : Nat
  processed : Nat
deriving DecidableEq, Repr

/-- One step of the `processBatch` loop body: `switch` on the iteration
result, incrementing the matching counter and `processed`; a `null` result
leaves every counter unchanged. -/
def batchStep (cls : Nat → Option IterResult) (acc : BatchTotals) (i : Nat) : BatchTotals :=
  match cls i with
  | some .win => { acc with wins := acc.wins + 1, processed := acc.processed + 1 }
  | some .tie => { acc with ties := acc.ties + 1, processed := acc.processed + 1 }
  | some .lose => { acc with losses := acc.losses + 1, processed := acc.processed + 1 }
  | none => acc

/-- The classification of local iteration `i` inside `processBatch`: shuffle
the remaining deck with that iteration's random draws, then run
`processIteration` on `playerHole = knownCards.slice(0, 2)`,
`existingCommunity = knownCards.slice(2)` and
`communityNeeded = 5 - existingCommunity.length`. -/
def iterClass (solve : SolveFn) (winners : WinnersFn) (rand : RandFn)
    (knownCards remainingDeck : List String) (i : Nat) : Option IterResult :=
  processIteration solve winners (knownCards.take 2) (knownCards.drop 2)
    (5 - (knownCards.drop 2).length) (shuffleArray (rand i) remainingDeck)

/-- `processBatch`: run `batchSize` iterations, tallying the outcomes. -/
def processBatch (solve : SolveFn) (winners : WinnersFn) (rand : RandFn)
    (knownCards remainingDeck : List String) (batchSize : Nat) : BatchTotals :=
  (List.range batchSize).foldl
    (batchStep (iterClass solve winners rand knownCards remainingDeck)) ⟨0, 0, 0, 0⟩

/-- The `batchSize = 25` constant of `monteCarloSimulation`. -/
def batchSize : Nat := 25

/-- The accumulator loop of `monteCarloSimulation` after `B` batches: batch
`b` runs `min(batchSize, iterations - b * batchSize)` iterations (its random
draws indexed from `b * batchSize`), and the four totals are summed. -/
def simTotalsUpTo (solve : SolveFn) (winners : WinnersFn) (rand : RandFn)
    (knownCards remainingDeck : List String) (iterations : Nat) (B : Nat) : BatchTotals :=
  (List.range B).foldl
    (fun acc batch =>
      let currentBatchSize := min batchSize (iterations - batch * batchSize)
      let b := processBatch solve winners
        (fun i => rand (batch * batchSize + i)) knownCards remainingDeck currentBatchSize
      ⟨acc.wins + b.wins, acc.ties + b.ties, acc.losses + b.losses,
        acc.processed + b.processed⟩)
    ⟨0, 0, 0, 0⟩

/-- `totalBatches = Math.ceil(iterations / batchSize)`. -/
def totalBatches (iterations : Nat) : Nat :=
  (iterations + (batchSize - 1)) / batchSize

/-- The four accumulated totals of `monteCarloSimulation` after all
batches. -/
def simTotals (solve : SolveFn) (winners : WinnersFn) (rand : RandFn)
    (knownCards remainingDeck : List String) (iterations : Nat) : BatchTotals :=
  simTotalsUpTo solve winners rand knownCards remainingDeck iterations
    (totalBatches iterations)

/-- The card-format test `/^(2|3|4|5|6|7|8|9|10|J|Q|K|A)[hdsc]$/.test(card)`:
the string is one valid rank token followed by one valid suit letter. -/
def isValidCard (card : String) : Bool :=
  allRanks.any fun r => allSuits.any fun s => card = r ++ s

/-- Local binding
`remainingDeck = fullDeck.filter(card => !knownCards.includes(card))` of
`monteCarloSimulation`. -/
def remainingDeckOf (knownCards : List String) : List String :=
  generateDeck.filter fun c => !(knownCards.contains c)

/-- `monteCarloSimulation`: validate the input, build the remaining deck,
run the batched iteration loop, and aggregate percentages; each
`throw new Error(msg)` of the source is `Except.error msg`. -/
def monteCarloSimulation (solve : SolveFn) (winners : WinnersFn) (rand : RandFn)
    (knownCards : List String) (iterations : Nat) : Except String SimulationResult :=
  if knownCards.length < 2 then
    .error ("Need at least 2 cards (hole cards) for simulation")
  else if knownCards.length > 7 then
    .error ("Too many cards selected (max 7: 2 hole + 5 community)")
  else
    match knownCards.find? (fun c => !(isValidCard c)) with
    | some c => .error ("Invalid card format: " ++ c)
    | none =>
      if knownCards.dedup.length ≠ knownCards.length then
        .error ("Duplicate cards detected")
      else
        let remainingDeck := remainingDeckOf knownCards
        if remainingDeck.length < 7 then
          .error ("Not enough cards remaining in deck")
        else
          let t := simTotals solve winners rand knownCards remainingDeck iterations
          if t.processed = 0 then
            .error ("No valid iterations completed")
          else
            .ok ⟨(t.wins : ℚ) / (t.processed : ℚ) * 100,
                 (t.ties : ℚ) / (t.processed : ℚ) * 100,
                 (t.losses : ℚ) / (t.processed : ℚ) * 100,
                 t.processed⟩


/-- The six error messages `monteCarloSimulation` can produce. -/
def simulationErrorMessages (knownCards : List String) : List String :=
  ["Need at least 2 cards (hole cards) for simulation",
   "Too many cards selected (max 7: 2 hole + 5 community)",
   "Duplicate cards detected",
   "Not enough cards remaining in deck",
   "No valid iterations completed"] ++
    knownCards.map (fun c => "Invalid card format: " ++ c)

end MonteCarlo

namespace V3

/-!
Shallow embedding of the legacy variant of the Monte Carlo module (the
version whose `SimulationResult` carries a `confidence` field and whose
rank tokens use `T` instead of `10`): `calculateConfidence` and the
single-loop `monteCarloSimulation`.  List helpers (`dealerHole`,
`fullCommunity`, …) and the tally step are shared with the `MonteCarlo`
namespace, whose definitions embed syntactically identical source code.
-/

/-- All possible ranks of the legacy module (`'T'`, not `'10'`). -/
def allRanks : List String := ["2","3","4","5","6","7","8","9","T","J","Q","K","A"]

/-- The result interface of the legacy module, with `confidence`. -/
structure SimulationResult where
  win : ℚ
  tie : ℚ
  lose : ℚ
  iterations : Nat
  confidence : Nat
deriving DecidableEq, Repr

/-- `generateDeck` of the legacy module. -/
def generateDeck : List String :=
  allRanks.flatMap fun r => MonteCarlo.allSuits.map fun s => r ++ s

/-- `calculateConfidence`: the iteration-count thresholds
2000/1000/500/250 mapping to 95/90/85/80, with base 75. -/
def calculateConfidence (iterations : Nat) : Nat :=
  if iterations ≥ 2000 then 95
  else if iterations ≥ 1000 then 90
  else if iterations ≥ 500 then 85
  else if iterations ≥ 250 then 80
  else 75

/-- The `try` body of one iteration of the legacy loop: identical dealing
to `MonteCarlo.processIteration`, but the cards are passed to the solver
without format conversion. -/
def processIteration (solve : MonteCarlo.SolveFn) (winners : MonteCarlo.WinnersFn)
    (playerHole existingCommunity : List String) (communityNeeded : Nat)
    (shuffled : List String) : Option MonteCarlo.IterResult :=
  let body : Except Unit MonteCarlo.IterResult := do
    let playerHand ← solve
      (MonteCarlo.playerCards playerHole existingCommunity communityNeeded shuffled)
    let dealerHand ← solve
      (MonteCarlo.dealerCards existingCommunity communityNeeded shuffled)
    let ws ← winners [playerHand, dealerHand]
    pure (MonteCarlo.classifyWinners playerHand ws)
  match body with
  | .ok r => some r
  | .error _ => none

/-- Classification of iteration `i` of the legacy loop. -/
def iterClass (solve : MonteCarlo.SolveFn) (winners : MonteCarlo.WinnersFn)
    (rand : MonteCarlo.RandFn) (knownCards remainingDeck : List String)
    (i : Nat) : Option MonteCarlo.IterResult :=
  processIteration solve winners (knownCards.take 2) (knownCards.drop 2)
    (5 - (knownCards.drop 2).length)
    (MonteCarlo.shuffleArray (rand i) remainingDeck)

/-- The tally of the legacy loop over all requested iterations (`wins`,
`ties`, `losses`, `validIterations`). -/
def simTotals (solve : MonteCarlo.SolveFn) (winners : MonteCarlo.WinnersFn)
    (rand : MonteCarlo.RandFn) (knownCards remainingDeck : List String)
    (iterations : Nat) : MonteCarlo.BatchTotals :=
  (List.range iterations).foldl
    (MonteCarlo.batchStep (iterClass solve winners rand knownCards remainingDeck))
    ⟨0, 0, 0, 0⟩

/-- Local binding
`remainingDeck = generateDeck().filter(card => !knownCards.includes(card))`
of the legacy `monteCarloSimulation`. -/
def remainingDeckOf (knownCards : List String) : List String :=
  generateDeck.filter fun c => !(knownCards.contains c)

/-- The legacy `monteCarloSimulation`: length validation, remaining-deck
check, the single tallying loop, then aggregation with
`confidence = calculateConfidence(validIterations)`. -/
def monteCarloSimulation (solve : MonteCarlo.SolveFn) (winners : MonteCarlo.WinnersFn)
    (rand : MonteCarlo.RandFn) (knownCards : List String) (iterations : Nat) :
    Except String SimulationResult :=
  if knownCards.length < 2 then
    .error ("Need at least 2 cards (hole cards) for simulation")
  else if knownCards.length > 7 then
    .error ("Too many cards selected (max 7: 2 hole + 5 community)")
  else
    let remainingDeck := remainingDeckOf knownCards
    if remainingDeck.length < 7 then
      .error ("Not enough cards remaining in deck")
    else
      let t := simTotals solve winners rand knownCards remainingDeck iterations
      if t.processed = 0 then
        .error ("No valid iterations completed")
      else
        .ok ⟨(t.wins : ℚ) / (t.processed : ℚ) * 100,
             (t.ties : ℚ) / (t.processed : ℚ) * 100,
             (t.losses : ℚ) / (t.processed : ℚ) * 100,
             t.processed,
             calculateConfidence t.processed⟩

end V3


namespace MonteCarlo

/-! Counting lemmas for the tally loops. -/

theorem batchStep_wins (cls : Nat → Option IterResult) (acc : BatchTotals) (i : Nat) :
    (batchStep cls acc i).wins =
      acc.wins + (if cls i = some IterResult.win then 1 else 0) := by
  rcases h : cls i with - | r
  · simp [batchStep, h]
  · cases r <;> simp [batchStep, h]

theorem batchStep_ties (cls : Nat → Option IterResult) (acc : BatchTotals) (i : Nat) :
    (batchStep cls acc i).ties =
      acc.ties + (if cls i = some IterResult.tie then 1 else 0) := by
  rcases h : cls i with - | r
  · simp [batchStep, h]
  · cases r <;> simp [batchStep, h]

theorem batchStep_losses (cls : Nat → Option IterResult) (acc : BatchTotals) (i : Nat) :
    (batchStep cls acc i).losses =
      acc.losses + (if cls i = some IterResult.lose then 1 else 0) := by
  rcases h : cls i with - | r
  · simp [batchStep, h]
  · cases r <;> simp [batchStep, h]

theorem batchStep_processed (cls : Nat → Option IterResult) (acc : BatchTotals) (i : Nat) :
    (batchStep cls acc i).processed =
      acc.processed + (if (cls i).isSome then 1 else 0) := by
  rcases h : cls i with - | r
  · simp [batchStep, h]
  · cases r <;> simp [batchStep, h]

/-- A skipped iteration (classification `none`) changes no counter at all. -/
theorem batchStep_none (cls : Nat → Option IterResult) (acc : BatchTotals) (i : Nat)
    (h : cls i = none) : batchStep cls acc i = acc := by
  simp [batchStep, h]

/-- Every `batchStep` keeps the tally invariant
`wins + ties + losses = processed`. -/
theorem batchStep_inv (cls : Nat → Option IterResult) (acc : BatchTotals) (i : Nat)
    (h : acc.wins + acc.ties + acc.losses = acc.processed) :
    (batchStep cls acc i).wins + (batchStep cls acc i).ties +
      (batchStep cls acc i).losses = (batchStep cls acc i).processed := by
  rcases hc : cls i with - | r
  · simpa [batchStep, hc] using h
  · cases r <;> simp [batchStep, hc] <;> omega

theorem foldl_batchStep_wins (cls : Nat → Option IterResult) (l : List Nat)
    (acc : BatchTotals) :
    (l.foldl (batchStep cls) acc).wins =
      acc.wins + l.countP (fun i => decide (cls i = some IterResult.win)) := by
  induction l generalizing acc with
  | nil => simp
  | cons a l ih =>
      rw [List.foldl_cons, ih, List.countP_cons, batchStep_wins]
      by_cases h : cls a = some IterResult.win <;> simp [h] <;> omega

theorem foldl_batchStep_ties (cls : Nat → Option IterResult) (l : List Nat)
    (acc : BatchTotals) :
    (l.foldl (batchStep cls) acc).ties =
      acc.ties + l.countP (fun i => decide (cls i = some IterResult.tie)) := by
  induction l generalizing acc with
  | nil => simp
  | cons a l ih =>
      rw [List.foldl_cons, ih, List.countP_cons, batchStep_ties]
      by_cases h : cls a = some IterResult.tie <;> simp [h] <;> omega

theorem foldl_batchStep_losses (cls : Nat → Option IterResult) (l : List Nat)
    (acc : BatchTotals) :
    (l.foldl (batchStep cls) acc).losses =
      acc.losses + l.countP (fun i => decide (cls i = some IterResult.lose)) := by
  induction l generalizing acc with
  | nil => simp
  | cons a l ih =>
      rw [List.foldl_cons, ih, List.countP_cons, batchStep_losses]
      by_cases h : cls a = some IterResult.lose <;> simp [h] <;> omega

theorem foldl_batchStep_processed (cls : Nat → Option IterResult) (l : List Nat)
    (acc : BatchTotals) :
    (l.foldl (batchStep cls) acc).processed =
      acc.processed + l.countP (fun i => (cls i).isSome) := by
  induction l generalizing acc with
  | nil => simp
  | cons a l ih =>
      rw [List.foldl_cons, ih, List.countP_cons, batchStep_processed]
      by_cases h : (cls a).isSome <;> simp [h] <;> omega

/-- The three outcome counts add up to the valid-iteration count. -/
theorem countP_outcomes (cls : Nat → Option IterResult) (l : List Nat) :
    l.countP (fun i => decide (cls i = some IterResult.win)) +
      l.countP (fun i => decide (cls i = some IterResult.tie)) +
      l.countP (fun i => decide (cls i = some IterResult.lose)) =
      l.countP (fun i => (cls i).isSome) := by
  induction l with
  | nil => simp
  | cons a l ih =>
      simp only [List.countP_cons]
      rcases h : cls a with - | r
      · simp [h]; omega
      · cases r <;> simp [h] <;> omega

theorem processBatch_wins (solve : SolveFn) (winners : WinnersFn) (rand : RandFn)
    (knownCards remainingDeck : List String) (n : Nat) :
    (processBatch solve winners rand knownCards remainingDeck n).wins =
      (List.range n).countP
        (fun i => decide (iterClass solve winners rand knownCards remainingDeck i =
          some IterResult.win)) := by
  unfold processBatch
  rw [foldl_batchStep_wins]
  simp

theorem processBatch_ties (solve : SolveFn) (winners : WinnersFn) (rand : RandFn)
    (knownCards remainingDeck : List String) (n : Nat) :
    (processBatch solve winners rand knownCards remainingDeck n).ties =
      (List.range n).countP
        (fun i => decide (iterClass solve winners rand knownCards remainingDeck i =
          some IterResult.tie)) := by
  unfold processBatch
  rw [foldl_batchStep_ties]
  simp

theorem processBatch_losses (solve : SolveFn) (winners : WinnersFn) (rand : RandFn)
    (knownCards remainingDeck : List String) (n : Nat) :
    (processBatch solve winners rand knownCards remainingDeck n).losses =
      (List.range n).countP
        (fun i => decide (iterClass solve winners rand knownCards remainingDeck i =
          some IterResult.lose)) := by
  unfold processBatch
  rw [foldl_batchStep_losses]
  simp

theorem processBatch_processed (solve : SolveFn) (winners : WinnersFn) (rand : RandFn)
    (knownCards remainingDeck : List String) (n : Nat) :
    (processBatch solve winners rand knownCards remainingDeck n).processed =
      (List.range n).countP
        (fun i => (iterClass solve winners rand knownCards remainingDeck i).isSome) := by
  unfold processBatch
  rw [foldl_batchStep_processed]
  simp

/-- Each batch satisfies the tally invariant. -/
theorem processBatch_inv (solve : SolveFn) (winners : WinnersFn) (rand : RandFn)
    (knownCards remainingDeck : List String) (n : Nat) :
    (processBatch solve winners rand knownCards remainingDeck n).wins +
      (processBatch solve winners rand knownCards remainingDeck n).ties +
      (processBatch solve winners rand knownCards remainingDeck n).losses =
      (processBatch solve winners rand knownCards remainingDeck n).processed := by
  rw [processBatch_wins, processBatch_ties, processBatch_losses, processBatch_processed,
    countP_outcomes]

/-- A batch never counts more processed iterations than its size. -/
theorem processBatch_processed_le (solve : SolveFn) (winners : WinnersFn) (rand : RandFn)
    (knownCards remainingDeck : List String) (n : Nat) :
    (processBatch solve winners rand knownCards remainingDeck n).processed ≤ n := by
  rw [processBatch_processed]
  exact le_trans (List.countP_le_length _) (le_of_eq (List.length_range n))

/-- Unfolding one more batch of the accumulator loop. -/
theorem simTotalsUpTo_succ (solve : SolveFn) (winners : WinnersFn) (rand : RandFn)
    (knownCards remainingDeck : List String) (iterations B : Nat) :
    simTotalsUpTo solve winners rand knownCards remainingDeck iterations (B + 1) =
      let acc := simTotalsUpTo solve winners rand knownCards remainingDeck iterations B
      let b := processBatch solve winners (fun i => rand (B * batchSize + i))
        knownCards remainingDeck (min batchSize (iterations - B * batchSize))
      ⟨acc.wins + b.wins, acc.ties + b.ties, acc.losses + b.losses,
        acc.processed + b.processed⟩ := by
  unfold simTotalsUpTo
  rw [List.range_succ, List.foldl_append, List.foldl_cons, List.foldl_nil]

/-- The accumulated totals keep the invariant
`wins + ties + losses = processed` at every batch boundary. -/
theorem simTotalsUpTo_inv (solve : SolveFn) (winners : WinnersFn) (rand : RandFn)
    (knownCards remainingDeck : List String) (iterations B : Nat) :
    (simTotalsUpTo solve winners rand knownCards remainingDeck iterations B).wins +
      (simTotalsUpTo solve winners rand knownCards remainingDeck iterations B).ties +
      (simTotalsUpTo solve winners rand knownCards remainingDeck iterations B).losses =
      (simTotalsUpTo solve winners rand knownCards remainingDeck iterations B).processed := by
  induction B with
  | zero => rfl
  | succ B ih =>
      rw [simTotalsUpTo_succ]
      have hb := processBatch_inv solve winners (fun i => rand (B * batchSize + i))
        knownCards remainingDeck (min batchSize (iterations - B * batchSize))
      simp only []
      omega

/-- After `B` batches at most `min (batchSize * B) iterations` iterations
have been processed. -/
theorem simTotalsUpTo_processed_le (solve : SolveFn) (winners : WinnersFn) (rand : RandFn)
    (knownCards remainingDeck : List String) (iterations B : Nat) :
    (simTotalsUpTo solve winners rand knownCards remainingDeck iterations B).processed ≤
      min (batchSize * B) iterations := by
  induction B with
  | zero => simp [simTotalsUpTo]
  | succ B ih =>
      rw [simTotalsUpTo_succ]
      simp only []
      have hb := processBatch_processed_le solve winners (fun i => rand (B * batchSize + i))
        knownCards remainingDeck (min batchSize (iterations - B * batchSize))
      have hb1 := le_trans hb (min_le_left batchSize (iterations - B * batchSize))
      have hb2 := le_trans hb (min_le_right batchSize (iterations - B * batchSize))
      have ih1 := le_trans ih (min_le_left (batchSize * B) iterations)
      have ih2 := le_trans ih (min_le_right (batchSize * B) iterations)
      have hbs : batchSize = 25 := rfl
      simp only [hbs] at hb1 hb2 ih1 ih2 ⊢
      refine le_min ?_ ?_ <;> omega

/-- The final `iterations` total never exceeds the requested count. -/
theorem simTotals_processed_le (solve : SolveFn) (winners : WinnersFn) (rand : RandFn)
    (knownCards remainingDeck : List String) (iterations : Nat) :
    (simTotals solve winners rand knownCards remainingDeck iterations).processed ≤
      iterations := by
  unfold simTotals
  exact le_trans (simTotalsUpTo_processed_le solve winners rand knownCards remainingDeck
    iterations (totalBatches iterations)) (min_le_right _ _)

/-- The final invariant: the three outcome totals add up to the processed
total. -/
theorem simTotals_inv (solve : SolveFn) (winners : WinnersFn) (rand : RandFn)
    (knownCards remainingDeck : List String) (iterations : Nat) :
    (simTotals solve winners rand knownCards remainingDeck iterations).wins +
      (simTotals solve winners rand knownCards remainingDeck iterations).ties +
      (simTotals solve winners rand knownCards remainingDeck iterations).losses =
      (simTotals solve winners rand knownCards remainingDeck iterations).processed := by
  unfold simTotals
  exact simTotalsUpTo_inv solve winners rand knownCards remainingDeck iterations _

/-- The processed total counts exactly the iterations whose classification
was valid (`isSome`), batch by batch. -/
theorem simTotalsUpTo_processed_eq (solve : SolveFn) (winners : WinnersFn) (rand : RandFn)
    (knownCards remainingDeck : List String) (iterations B : Nat) :
    (simTotalsUpTo solve winners rand knownCards remainingDeck iterations B).processed =
      ∑ b ∈ Finset.range B,
        (List.range (min batchSize (iterations - b * batchSize))).countP
          (fun i => (iterClass solve winners (fun k => rand (b * batchSize + k))
            knownCards remainingDeck i).isSome) := by
  induction B with
  | zero => rfl
  | succ B ih =>
      rw [simTotalsUpTo_succ, Finset.sum_range_succ]
      simp only []
      rw [ih, processBatch_processed]


/-- The outcome totals count exactly the winning / tying / losing valid
iterations, batch by batch. -/
theorem simTotalsUpTo_wins_eq (solve : SolveFn) (winners : WinnersFn) (rand : RandFn)
    (knownCards remainingDeck : List String) (iterations B : Nat) :
    (simTotalsUpTo solve winners rand knownCards remainingDeck iterations B).wins =
      ∑ b ∈ Finset.range B,
        (List.range (min batchSize (iterations - b * batchSize))).countP
          (fun i => decide (iterClass solve winners (fun k => rand (b * batchSize + k))
            knownCards remainingDeck i = some IterResult.win)) := by
  induction B with
  | zero => rfl
  | succ B ih =>
      rw [simTotalsUpTo_succ, Finset.sum_range_succ]
      simp only []
      rw [ih, processBatch_wins]

theorem simTotalsUpTo_ties_eq (solve : SolveFn) (winners : WinnersFn) (rand : RandFn)
    (knownCards remainingDeck : List String) (iterations B : Nat) :
    (simTotalsUpTo solve winners rand knownCards remainingDeck iterations B).ties =
      ∑ b ∈ Finset.range B,
        (List.range (min batchSize (iterations - b * batchSize))).countP
          (fun i => decide (iterClass solve winners (fun k => rand (b * batchSize + k))
            knownCards remainingDeck i = some IterResult.tie)) := by
  induction B with
  | zero => rfl
  | succ B ih =>
      rw [simTotalsUpTo_succ, Finset.sum_range_succ]
      simp only []
      rw [ih, processBatch_ties]

theorem simTotalsUpTo_losses_eq (solve : SolveFn) (winners : WinnersFn) (rand : RandFn)
    (knownCards remainingDeck : List String) (iterations B : Nat) :
    (simTotalsUpTo solve winners rand knownCards remainingDeck iterations B).losses =
      ∑ b ∈ Finset.range B,
        (List.range (min batchSize (iterations - b * batchSize))).countP
          (fun i => decide (iterClass solve winners (fun k => rand (b * batchSize + k))
            knownCards remainingDeck i = some IterResult.lose)) := by
  induction B with
  | zero => rfl
  | succ B ih =>
      rw [simTotalsUpTo_succ, Finset.sum_range_succ]
      simp only []
      rw [ih, processBatch_losses]

/-- Membership in the generated deck, decomposed into rank and suit. -/
theorem mem_generateDeck (c : String) :
    c ∈ generateDeck ↔ ∃ r ∈ allRanks, ∃ s ∈ allSuits, c = r ++ s := by
  unfold generateDeck
  rw [List.mem_flatMap]
  constructor
  · rintro ⟨r, hr, hc⟩
    rcases List.mem_map.mp hc with ⟨u, hu, he⟩
    exact ⟨r, hr, u, hu, he.symm⟩
  · rintro ⟨r, hr, u, hu, he⟩
    exact ⟨r, hr, List.mem_map.mpr ⟨u, hu, he.symm⟩⟩

/-- A string passes the card-format test exactly when it is one of the 52
deck cards. -/
theorem isValidCard_iff (c : String) : isValidCard c = true ↔ c ∈ generateDeck := by
  rw [mem_generateDeck]
  unfold isValidCard
  rw [List.any_eq_true]
  constructor
  · rintro ⟨r, hr, hs⟩
    rcases List.any_eq_true.mp hs with ⟨u, hu, he⟩
    exact ⟨r, hr, u, hu, of_decide_eq_true he⟩
  · rintro ⟨r, hr, u, hu, he⟩
    exact ⟨r, hr, List.any_eq_true.mpr ⟨u, hu, decide_eq_true he⟩⟩

/-- A list whose dedup has full length has no duplicates (the `Set`-size
check of the source). -/
theorem nodup_of_dedup_length {α : Type _} [DecidableEq α] (l : List α)
    (h : l.dedup.length = l.length) : l.Nodup := by
  have hs : List.Sublist l.dedup l := List.dedup_sublist l
  have he : l.dedup = l := hs.eq_of_length h
  rw [← he]
  exact List.nodup_dedup l

/-- Splitting a count by a predicate and its negation. -/
theorem countP_not_add (p : String → Bool) (l : List String) :
    l.countP p + l.countP (fun a => !(p a)) = l.length := by
  induction l with
  | nil => simp
  | cons a l ih =>
      rw [List.countP_cons, List.countP_cons]
      cases h : p a <;> simp [h] <;> omega

/-- Removing `knownCards` (distinct cards of the deck) from the 52-card
deck leaves exactly `52 - knownCards.length` cards. -/
theorem length_remainingDeck (knownCards : List String)
    (hsub : ∀ c ∈ knownCards, c ∈ generateDeck) (hnd : knownCards.Nodup) :
    (remainingDeckOf knownCards).length = 52 - knownCards.length := by
  unfold remainingDeckOf
  have hdeck : generateDeck.Nodup := by decide
  have hperm :
      List.Perm (generateDeck.filter (fun c => knownCards.contains c)) knownCards := by
    rw [List.perm_iff_count]
    intro a
    by_cases ha : a ∈ knownCards
    · have hpa : (fun c => knownCards.contains c) a = true := by simp [ha]
      rw [List.count_filter hpa, List.count_eq_one_of_mem hdeck (hsub a ha),
        List.count_eq_one_of_mem hnd ha]
    · have hnm : a ∉ generateDeck.filter (fun c => knownCards.contains c) := by
        intro hmem
        rcases List.mem_filter.mp hmem with ⟨h1, hpa⟩
        exact ha (by simpa using hpa)
      rw [List.count_eq_zero_of_not_mem hnm, List.count_eq_zero_of_not_mem ha]
  have hsplit :
      (generateDeck.filter (fun c => knownCards.contains c)).length +
        (generateDeck.filter (fun c => !(knownCards.contains c))).length =
        generateDeck.length := by
    rw [← List.countP_eq_length_filter, ← List.countP_eq_length_filter]
    exact countP_not_add _ _
  have h52 : generateDeck.length = 52 := by decide
  have hk := hperm.length_eq
  omega


/-- Unfolding of a successful `monteCarloSimulation` call: all validations
pass and at least one iteration was processed. -/
theorem monteCarloSimulation_eq_ok (solve : SolveFn) (winners : WinnersFn) (rand : RandFn)
    (knownCards : List String) (iterations : Nat)
    (h2 : ¬ knownCards.length < 2) (h7 : ¬ knownCards.length > 7)
    (hv : knownCards.find? (fun c => !(isValidCard c)) = none)
    (hd : ¬ knownCards.dedup.length ≠ knownCards.length)
    (hr : ¬ (remainingDeckOf knownCards).length < 7)
    (hp : ¬ (simTotals solve winners rand knownCards (remainingDeckOf knownCards)
        iterations).processed = 0) :
    monteCarloSimulation solve winners rand knownCards iterations =
      .ok ⟨((simTotals solve winners rand knownCards (remainingDeckOf knownCards)
              iterations).wins : ℚ) /
            ((simTotals solve winners rand knownCards (remainingDeckOf knownCards)
              iterations).processed : ℚ) * 100,
           ((simTotals solve winners rand knownCards (remainingDeckOf knownCards)
              iterations).ties : ℚ) /
            ((simTotals solve winners rand knownCards (remainingDeckOf knownCards)
              iterations).processed : ℚ) * 100,
           ((simTotals solve winners rand knownCards (remainingDeckOf knownCards)
              iterations).losses : ℚ) /
            ((simTotals solve winners rand knownCards (remainingDeckOf knownCards)
              iterations).processed : ℚ) * 100,
           (simTotals solve winners rand knownCards (remainingDeckOf knownCards)
              iterations).processed⟩ := by
  unfold monteCarloSimulation
  rw [if_neg h2, if_neg h7]
  simp only [hv]
  rw [if_neg hd, if_neg hr, if_neg hp]

/-- A too-short input fails with the first validation message. -/
theorem monteCarloSimulation_eq_error_tooFew (solve : SolveFn) (winners : WinnersFn)
    (rand : RandFn) (knownCards : List String) (iterations : Nat)
    (h2 : knownCards.length < 2) :
    monteCarloSimulation solve winners rand knownCards iterations =
      .error ("Need at least 2 cards (hole cards) for simulation") := by
  unfold monteCarloSimulation
  rw [if_pos h2]

/-- A too-long input fails with the second validation message. -/
theorem monteCarloSimulation_eq_error_tooMany (solve : SolveFn) (winners : WinnersFn)
    (rand : RandFn) (knownCards : List String) (iterations : Nat)
    (h2 : ¬ knownCards.length < 2) (h7 : knownCards.length > 7) :
    monteCarloSimulation solve winners rand knownCards iterations =
      .error ("Too many cards selected (max 7: 2 hole + 5 community)") := by
  unfold monteCarloSimulation
  rw [if_neg h2, if_pos h7]

/-- An input of accepted length and format with a repeated card fails with
the duplicate-cards message. -/
theorem monteCarloSimulation_eq_error_dup (solve : SolveFn) (winners : WinnersFn)
    (rand : RandFn) (knownCards : List String) (iterations : Nat)
    (h2 : ¬ knownCards.length < 2) (h7 : ¬ knownCards.length > 7)
    (hv : knownCards.find? (fun c => !(isValidCard c)) = none)
    (hd : knownCards.dedup.length ≠ knownCards.length) :
    monteCarloSimulation solve winners rand knownCards iterations =
      .error ("Duplicate cards detected") := by
  unfold monteCarloSimulation
  rw [if_neg h2, if_neg h7]
  simp only [hv]
  rw [if_pos hd]

/-- When all validations pass but no iteration produced a classification,
the call fails with the no-valid-iterations message. -/
theorem monteCarloSimulation_eq_error_noValid (solve : SolveFn) (winners : WinnersFn)
    (rand : RandFn) (knownCards : List String) (iterations : Nat)
    (h2 : ¬ knownCards.length < 2) (h7 : ¬ knownCards.length > 7)
    (hv : knownCards.find? (fun c => !(isValidCard c)) = none)
    (hd : ¬ knownCards.dedup.length ≠ knownCards.length)
    (hr : ¬ (remainingDeckOf knownCards).length < 7)
    (hp : (simTotals solve winners rand knownCards (remainingDeckOf knownCards)
        iterations).processed = 0) :
    monteCarloSimulation solve winners rand knownCards iterations =
      .error ("No valid iterations completed") := by
  unfold monteCarloSimulation
  rw [if_neg h2, if_neg h7]
  simp only [hv]
  rw [if_neg hd, if_neg hr, if_pos hp]

/-- Every failing `monteCarloSimulation` call fails with one of the source's
own messages: per-iteration solver failures never surface as call-level
errors. -/
theorem monteCarloSimulation_error_mem (solve : SolveFn) (winners : WinnersFn)
    (rand : RandFn) (knownCards : List String) (iterations : Nat) (msg : String)
    (h : monteCarloSimulation solve winners rand knownCards iterations = .error msg) :
    msg ∈ simulationErrorMessages knownCards := by
  unfold monteCarloSimulation at h
  unfold simulationErrorMessages
  split at h
  · cases h
    simp
  · split at h
    · cases h
      simp
    · split at h
      · rename_i c hc
        cases h
        simp only [List.mem_append, List.mem_map]
        refine Or.inr ⟨c, List.mem_of_find?_eq_some hc, rfl⟩
      · split at h
        · cases h
          simp
        · simp only [] at h
          split at h
          · cases h
            simp
          · split at h
            · cases h
              simp
            · cases h


/-- Putting a stored element back on top of a `set` is a permutation:
if `l[j] = b` then `b :: l.set j a` is a rearrangement of `a :: l`. -/
theorem cons_set_perm {α : Type _} :
    ∀ (l : List α) (j : Nat) (a b : α), l[j]? = some b →
      List.Perm (b :: l.set j a) (a :: l)
  | [], j, a, b, h => by simp at h
  | c :: t, 0, a, b, h => by
      rw [List.getElem?_cons_zero] at h
      injection h with hb
      subst hb
      rw [List.set_cons_zero]
      exact List.Perm.swap a c t
  | c :: t, j + 1, a, b, h => by
      rw [List.getElem?_cons_succ] at h
      rw [List.set_cons_succ]
      exact ((List.Perm.swap c b (t.set j a)).trans
        ((cons_set_perm t j a b h).cons c)).trans (List.Perm.swap a c t)

/-- The swap on a `cons` cell with both indices positive acts on the
tail. -/
theorem swapList_cons {α : Type _} (c : α) (t : List α) (i j : Nat) :
    swapList (c :: t) (i + 1) (j + 1) = c :: swapList t i j := by
  unfold swapList
  rw [List.getElem?_cons_succ, List.getElem?_cons_succ]
  rcases hi : t[i]? with - | a
  · rfl
  · rcases hj : t[j]? with - | b
    · rfl
    · show ((c :: t).set (i + 1) b).set (j + 1) a = c :: ((t.set i b).set j a)
      rw [List.set_cons_succ, List.set_cons_succ]

/-- A single destructuring swap permutes the list. -/
theorem swapList_perm {α : Type _} :
    ∀ (l : List α) (i j : Nat), List.Perm (swapList l i j) l
  | [], i, j => by
      unfold swapList
      simp
  | c :: t, 0, 0 => by
      unfold swapList
      simp
  | c :: t, 0, j + 1 => by
      unfold swapList
      rw [List.getElem?_cons_zero, List.getElem?_cons_succ]
      rcases hj : t[j]? with - | b
      · exact List.Perm.refl _
      · show (((c :: t).set 0 b).set (j + 1) c).Perm (c :: t)
        rw [List.set_cons_zero, List.set_cons_succ]
        exact cons_set_perm t j c b hj
  | c :: t, i + 1, 0 => by
      unfold swapList
      rw [List.getElem?_cons_zero, List.getElem?_cons_succ]
      rcases hi : t[i]? with - | a
      · exact List.Perm.refl _
      · show (((c :: t).set (i + 1) c).set 0 a).Perm (c :: t)
        rw [List.set_cons_succ, List.set_cons_zero]
        exact cons_set_perm t i c a hi
  | c :: t, i + 1, j + 1 => by
      rw [swapList_cons]
      exact (swapList_perm t i j).cons c

/-- Every pass of the Fisher–Yates loop permutes the list. -/
theorem fyLoop_perm {α : Type _} (rand : Nat → Nat) (l : List α) (i : Nat) :
    List.Perm (fyLoop rand l i) l := by
  induction i generalizing l with
  | zero => exact List.Perm.refl l
  | succ i ih =>
      exact (ih _).trans (swapList_perm l (i + 1) (rand (i + 1) % (i + 2)))

/-- The shuffle always returns a permutation of its input. -/
theorem shuffleArray_perm {α : Type _} (rand : Nat → Nat) (array : List α) :
    List.Perm (shuffleArray rand array) array :=
  fyLoop_perm rand array (array.length - 1)


/-- Inversion of a successful call: the totals were nonzero and the result
is exactly the aggregated record. -/
theorem monteCarloSimulation_ok_elim (solve : SolveFn) (winners : WinnersFn)
    (rand : RandFn) (knownCards : List String) (iterations : Nat)
    (r : SimulationResult)
    (h : monteCarloSimulation solve winners rand knownCards iterations = .ok r) :
    (simTotals solve winners rand knownCards (remainingDeckOf knownCards)
        iterations).processed ≠ 0 ∧
      r = ⟨((simTotals solve winners rand knownCards (remainingDeckOf knownCards)
              iterations).wins : ℚ) /
            ((simTotals solve winners rand knownCards (remainingDeckOf knownCards)
              iterations).processed : ℚ) * 100,
           ((simTotals solve winners rand knownCards (remainingDeckOf knownCards)
              iterations).ties : ℚ) /
            ((simTotals solve winners rand knownCards (remainingDeckOf knownCards)
              iterations).processed : ℚ) * 100,
           ((simTotals solve winners rand knownCards (remainingDeckOf knownCards)
              iterations).losses : ℚ) /
            ((simTotals solve winners rand knownCards (remainingDeckOf knownCards)
              iterations).processed : ℚ) * 100,
           (simTotals solve winners rand knownCards (remainingDeckOf knownCards)
              iterations).processed⟩ := by
  unfold monteCarloSimulation at h
  split at h
  · exact Except.noConfusion h
  · split at h
    · exact Except.noConfusion h
    · split at h
      · exact Except.noConfusion h
      · split at h
        · exact Except.noConfusion h
        · simp only [] at h
          split at h
          · exact Except.noConfusion h
          · split at h
            · exact Except.noConfusion h
            · rename_i hp
              injection h with hr
              exact ⟨hp, hr.symm⟩

/-- In every successful result the three percentages add up to exactly
100. -/
theorem monteCarloSimulation_ok_sum (solve : SolveFn) (winners : WinnersFn)
    (rand : RandFn) (knownCards : List String) (iterations : Nat)
    (r : SimulationResult)
    (h : monteCarloSimulation solve winners rand knownCards iterations = .ok r) :
    r.win + r.tie + r.lose = 100 := by
  rcases monteCarloSimulation_ok_elim solve winners rand knownCards iterations r h with
    ⟨hp, hr⟩
  subst hr
  have hsum := simTotals_inv solve winners rand knownCards (remainingDeckOf knownCards)
    iterations
  have hpq : ((simTotals solve winners rand knownCards (remainingDeckOf knownCards)
      iterations).processed : ℚ) ≠ 0 := Nat.cast_ne_zero.mpr hp
  simp only []
  rw [div_mul_eq_mul_div, div_mul_eq_mul_div, div_mul_eq_mul_div, div_add_div_same,
    div_add_div_same, ← add_mul, ← add_mul]
  rw [div_eq_iff hpq]
  have : ((simTotals solve winners rand knownCards (remainingDeckOf knownCards)
      iterations).wins : ℚ) +
      ((simTotals solve winners rand knownCards (remainingDeckOf knownCards)
        iterations).ties : ℚ) +
      ((simTotals solve winners rand knownCards (remainingDeckOf knownCards)
        iterations).losses : ℚ) =
      ((simTotals solve winners rand knownCards (remainingDeckOf knownCards)
        iterations).processed : ℚ) := by
    exact_mod_cast congrArg (Nat.cast : Nat → ℚ) hsum
  rw [this]
  ring

end MonteCarlo

namespace V3

/-- The confidence score is always at least 75. -/
theorem calculateConfidence_ge (n : Nat) : 75 ≤ calculateConfidence n := by
  unfold calculateConfidence
  split_ifs <;> omega

/-- The confidence score never exceeds 100 (indeed never exceeds 95). -/
theorem calculateConfidence_le (n : Nat) : calculateConfidence n ≤ 100 := by
  unfold calculateConfidence
  split_ifs <;> omega

/-- The confidence score is monotone in the valid-iteration count. -/
theorem calculateConfidence_mono (m k : Nat) :
    calculateConfidence m ≤ calculateConfidence (m + k) := by
  unfold calculateConfidence
  split_ifs <;> omega

/-- Unfolding of a successful legacy call. -/
theorem legacySimulation_eq_ok (solve : MonteCarlo.SolveFn)
    (winners : MonteCarlo.WinnersFn) (rand : MonteCarlo.RandFn)
    (knownCards : List String) (iterations : Nat)
    (h2 : ¬ knownCards.length < 2) (h7 : ¬ knownCards.length > 7)
    (hr : ¬ (remainingDeckOf knownCards).length < 7)
    (hp : ¬ (simTotals solve winners rand knownCards (remainingDeckOf knownCards)
        iterations).processed = 0) :
    monteCarloSimulation solve winners rand knownCards iterations =
      .ok ⟨((simTotals solve winners rand knownCards (remainingDeckOf knownCards)
              iterations).wins : ℚ) /
            ((simTotals solve winners rand knownCards (remainingDeckOf knownCards)
              iterations).processed : ℚ) * 100,
           ((simTotals solve winners rand knownCards (remainingDeckOf knownCards)
              iterations).ties : ℚ) /
            ((simTotals solve winners rand knownCards (remainingDeckOf knownCards)
              iterations).processed : ℚ) * 100,
           ((simTotals solve winners rand knownCards (remainingDeckOf knownCards)
              iterations).losses : ℚ) /
            ((simTotals solve winners rand knownCards (remainingDeckOf knownCards)
              iterations).processed : ℚ) * 100,
           (simTotals solve winners rand knownCards (remainingDeckOf knownCards)
              iterations).processed,
           calculateConfidence ((simTotals solve winners rand knownCards
              (remainingDeckOf knownCards) iterations).processed)⟩ := by
  unfold monteCarloSimulation
  rw [if_neg h2, if_neg h7, if_neg hr, if_neg hp]

/-- Inversion of a successful legacy call: the returned `confidence` is
`calculateConfidence` of the returned `iterations`. -/
theorem legacySimulation_ok_elim (solve : MonteCarlo.SolveFn)
    (winners : MonteCarlo.WinnersFn) (rand : MonteCarlo.RandFn)
    (knownCards : List String) (iterations : Nat) (r : SimulationResult)
    (h : monteCarloSimulation solve winners rand knownCards iterations = .ok r) :
    r.confidence = calculateConfidence r.iterations := by
  unfold monteCarloSimulation at h
  split at h
  · exact Except.noConfusion h
  · split at h
    · exact Except.noConfusion h
    · simp only [] at h
      split at h
      · exact Except.noConfusion h
      · split at h
        · exact Except.noConfusion h
        · injection h with hr
          rw [← hr]

end V3





/-- C8: the simulator's shuffle follows the Fisher–Yates scheme (the
embedded `shuffleArray` iterates `i` from the last index down to `1`,
swapping element `i` with an element at a uniformly chosen index `≤ i`) and
for every random oracle its output is a permutation of its input: same
length and same multiset of elements; the input list itself is a pure value
and is never modified. -/
theorem shuffleArray_is_permutation {α : Type _} (rand : Nat → Nat) (array : List α) :
    List.Perm (MonteCarlo.shuffleArray rand array) array ∧
      (MonteCarlo.shuffleArray rand array).length = array.length ∧
      ((MonteCarlo.shuffleArray rand array : List α) : Multiset α) = (array : Multiset α) :=
  ⟨MonteCarlo.shuffleArray_perm rand array,
   (MonteCarlo.shuffleArray_perm rand array).length_eq,
   Multiset.coe_eq_coe.mpr (MonteCarlo.shuffleArray_perm rand array)⟩

/-- C9: for every known-cards input passing the length, format and
duplicate validations, the remaining deck has exactly
`52 - knownCards.length ≥ 45` cards, so the insufficient-deck branch
(fewer than 7 remaining) is unreachable. -/
theorem remaining_deck_size_safe (knownCards : List String)
    (h2 : 2 ≤ knownCards.length) (h7 : knownCards.length ≤ 7)
    (hv : ∀ c ∈ knownCards, MonteCarlo.isValidCard c = true)
    (hnd : knownCards.Nodup) :
    (MonteCarlo.remainingDeckOf knownCards).length = 52 - knownCards.length ∧
      45 ≤ (MonteCarlo.remainingDeckOf knownCards).length ∧
      ¬ (MonteCarlo.remainingDeckOf knownCards).length < 7 := by
  have hsub : ∀ c ∈ knownCards, c ∈ MonteCarlo.generateDeck := fun c hc =>
    (MonteCarlo.isValidCard_iff c).mp (hv c hc)
  have hlen := MonteCarlo.length_remainingDeck knownCards hsub hnd
  refine ⟨hlen, ?_, ?_⟩ <;> omega

theorem remaining_deck_size_safe_witness :
    (MonteCarlo.remainingDeckOf ["Ah", "Ad"]).length =
        52 - (["Ah", "Ad"] : List String).length ∧
      45 ≤ (MonteCarlo.remainingDeckOf ["Ah", "Ad"]).length ∧
      ¬ (MonteCarlo.remainingDeckOf ["Ah", "Ad"]).length < 7 :=
  remaining_deck_size_safe ["Ah", "Ad"] (by decide) (by decide) (by decide) (by decide)

/-- C6: a known-cards input of length below 2 fails with the
too-few-cards message, one of length above 7 fails with the
too-many-cards message, and a well-formed input of accepted length with a
repeated card fails with the duplicate-cards message; in each case the
call returns an error, never a result. -/
theorem input_validation_errors (solve : MonteCarlo.SolveFn)
    (winners : MonteCarlo.WinnersFn) (rand : MonteCarlo.RandFn)
    (knownCards : List String) (iterations : Nat) :
    (knownCards.length < 2 →
      MonteCarlo.monteCarloSimulation solve winners rand knownCards iterations =
        .error ("Need at least 2 cards (hole cards) for simulation")) ∧
    (knownCards.length > 7 →
      MonteCarlo.monteCarloSimulation solve winners rand knownCards iterations =
        .error ("Too many cards selected (max 7: 2 hole + 5 community)")) ∧
    (2 ≤ knownCards.length → knownCards.length ≤ 7 →
      (∀ c ∈ knownCards, MonteCarlo.isValidCard c = true) → ¬ knownCards.Nodup →
      MonteCarlo.monteCarloSimulation solve winners rand knownCards iterations =
        .error ("Duplicate cards detected")) := by
  refine ⟨?_, ?_, ?_⟩
  · intro h2
    exact MonteCarlo.monteCarloSimulation_eq_error_tooFew solve winners rand knownCards
      iterations h2
  · intro h7
    exact MonteCarlo.monteCarloSimulation_eq_error_tooMany solve winners rand knownCards
      iterations (by omega) h7
  · intro h2 h7 hv hnd
    refine MonteCarlo.monteCarloSimulation_eq_error_dup solve winners rand knownCards
      iterations (by omega) (by omega) ?_ ?_
    · exact List.find?_eq_none.mpr fun c hc => by simp [hv c hc]
    · intro heq
      exact hnd (MonteCarlo.nodup_of_dedup_length knownCards heq)

theorem input_validation_errors_witness :
    MonteCarlo.monteCarloSimulation (fun _ => .ok 0) (fun _ => .ok [0]) (fun _ _ => 0)
        ["Ah"] 10 = .error ("Need at least 2 cards (hole cards) for simulation") ∧
      MonteCarlo.monteCarloSimulation (fun _ => .ok 0) (fun _ => .ok [0]) (fun _ _ => 0)
        ["2h", "3h", "4h", "5h", "6h", "7h", "8h", "9h"] 10 =
        .error ("Too many cards selected (max 7: 2 hole + 5 community)") ∧
      MonteCarlo.monteCarloSimulation (fun _ => .ok 0) (fun _ => .ok [0]) (fun _ _ => 0)
        ["Ah", "Ah"] 10 = .error ("Duplicate cards detected") :=
  ⟨(input_validation_errors (fun _ => .ok 0) (fun _ => .ok [0]) (fun _ _ => 0)
      ["Ah"] 10).1 (by decide),
   (input_validation_errors (fun _ => .ok 0) (fun _ => .ok [0]) (fun _ _ => 0)
      ["2h", "3h", "4h", "5h", "6h", "7h", "8h", "9h"] 10).2.1 (by decide),
   (input_validation_errors (fun _ => .ok 0) (fun _ => .ok [0]) (fun _ _ => 0)
      ["Ah", "Ah"] 10).2.2 (by decide) (by decide) (by decide) (by decide)⟩

/-- C7 counterexample: the code performs no iteration-count validation.
With `iterations = 0` the call fails with the no-valid-iterations message
(not an iteration-count error), and with `iterations = 5` — below the
spec's example floor of 10 — the call succeeds. -/
theorem no_iteration_bound_counterexample :
    MonteCarlo.monteCarloSimulation (fun _ => .ok 0) (fun _ => .ok [0]) (fun _ _ => 0)
        ["Ah", "Ad"] 0 = .error ("No valid iterations completed") ∧
      (MonteCarlo.monteCarloSimulation (fun _ => .ok 0) (fun _ => .ok [0]) (fun _ _ => 0)
        ["Ah", "Ad"] 5).isOk = true := by
  constructor
  · decide
  · decide

/-- C7 amended: `monteCarloSimulation` never validates the iteration
count; every call-level error is one of the six implemented messages (no
iteration-count message exists), and a valid input with `iterations = 0`
runs zero batches and fails with the no-valid-iterations message. -/
theorem iteration_count_amended (solve : MonteCarlo.SolveFn)
    (winners : MonteCarlo.WinnersFn) (rand : MonteCarlo.RandFn)
    (knownCards : List String) (iterations : Nat) :
    (∀ msg, MonteCarlo.monteCarloSimulation solve winners rand knownCards iterations =
        .error msg → msg ∈ MonteCarlo.simulationErrorMessages knownCards) ∧
    (2 ≤ knownCards.length → knownCards.length ≤ 7 →
      (∀ c ∈ knownCards, MonteCarlo.isValidCard c = true) → knownCards.Nodup →
      MonteCarlo.monteCarloSimulation solve winners rand knownCards 0 =
        .error ("No valid iterations completed")) := by
  constructor
  · intro msg h
    exact MonteCarlo.monteCarloSimulation_error_mem solve winners rand knownCards
      iterations msg h
  · intro h2 h7 hv hnd
    have hsub : ∀ c ∈ knownCards, c ∈ MonteCarlo.generateDeck := fun c hc =>
      (MonteCarlo.isValidCard_iff c).mp (hv c hc)
    have hlen := MonteCarlo.length_remainingDeck knownCards hsub hnd
    refine MonteCarlo.monteCarloSimulation_eq_error_noValid solve winners rand knownCards 0
      (by omega) (by omega) ?_ ?_ (by omega) ?_
    · exact List.find?_eq_none.mpr fun c hc => by simp [hv c hc]
    · intro heq
      exact heq (congrArg List.length (List.dedup_eq_self.mpr hnd))
    · rfl

theorem iteration_count_amended_witness :
    ("Need at least 2 cards (hole cards) for simulation" ∈
        MonteCarlo.simulationErrorMessages ["Ah"]) ∧
      MonteCarlo.monteCarloSimulation (fun _ => .ok 0) (fun _ => .ok [0]) (fun _ _ => 0)
        ["Ah", "Ad"] 0 = .error ("No valid iterations completed") :=
  ⟨(iteration_count_amended (fun _ => .ok 0) (fun _ => .ok [0]) (fun _ _ => 0)
      ["Ah"] 10).1 _ (by decide),
   (iteration_count_amended (fun _ => .ok 0) (fun _ => .ok [0]) (fun _ _ => 0)
      ["Ah", "Ad"] 10).2 (by decide) (by decide) (by decide) (by decide)⟩

/-- C4: in every iteration the dealer's hole cards are the first 2 cards
of the shuffled remaining deck, the missing community cards are the next
`5 - (knownCards.length - 2)` cards of it, the completed community has
exactly 5 cards, and the two pools are `player hole ++ community` and
`dealer hole ++` the same community, each of 7 cards. -/
theorem iteration_dealing_structure (rand : Nat → Nat)
    (knownCards remainingDeck : List String)
    (h2 : 2 ≤ knownCards.length) (h7 : knownCards.length ≤ 7)
    (hlen : 7 ≤ remainingDeck.length) :
    MonteCarlo.dealerHole (MonteCarlo.shuffleArray rand remainingDeck) =
      (MonteCarlo.shuffleArray rand remainingDeck).take 2 ∧
    MonteCarlo.additionalCommunity (5 - (knownCards.drop 2).length)
        (MonteCarlo.shuffleArray rand remainingDeck) =
      ((MonteCarlo.shuffleArray rand remainingDeck).drop 2).take
        (5 - (knownCards.length - 2)) ∧
    (MonteCarlo.additionalCommunity (5 - (knownCards.drop 2).length)
        (MonteCarlo.shuffleArray rand remainingDeck)).length =
      5 - (knownCards.length - 2) ∧
    (MonteCarlo.fullCommunity (knownCards.drop 2) (5 - (knownCards.drop 2).length)
        (MonteCarlo.shuffleArray rand remainingDeck)).length = 5 ∧
    MonteCarlo.playerCards (knownCards.take 2) (knownCards.drop 2)
        (5 - (knownCards.drop 2).length) (MonteCarlo.shuffleArray rand remainingDeck) =
      knownCards.take 2 ++
        MonteCarlo.fullCommunity (knownCards.drop 2) (5 - (knownCards.drop 2).length)
          (MonteCarlo.shuffleArray rand remainingDeck) ∧
    MonteCarlo.dealerCards (knownCards.drop 2) (5 - (knownCards.drop 2).length)
        (MonteCarlo.shuffleArray rand remainingDeck) =
      (MonteCarlo.shuffleArray rand remainingDeck).take 2 ++
        MonteCarlo.fullCommunity (knownCards.drop 2) (5 - (knownCards.drop 2).length)
          (MonteCarlo.shuffleArray rand remainingDeck) ∧
    (MonteCarlo.playerCards (knownCards.take 2) (knownCards.drop 2)
        (5 - (knownCards.drop 2).length)
        (MonteCarlo.shuffleArray rand remainingDeck)).length = 7 ∧
    (MonteCarlo.dealerCards (knownCards.drop 2) (5 - (knownCards.drop 2).length)
        (MonteCarlo.shuffleArray rand remainingDeck)).length = 7 := by
  have hshuf : (MonteCarlo.shuffleArray rand remainingDeck).length =
      remainingDeck.length := (MonteCarlo.shuffleArray_perm rand remainingDeck).length_eq
  have hdl : (knownCards.drop 2).length = knownCards.length - 2 :=
    List.length_drop 2 knownCards
  have htl : (knownCards.take 2).length = 2 := by
    rw [List.length_take]
    omega
  have haddl : (MonteCarlo.additionalCommunity (5 - (knownCards.drop 2).length)
      (MonteCarlo.shuffleArray rand remainingDeck)).length =
      5 - (knownCards.length - 2) := by
    unfold MonteCarlo.additionalCommunity
    rw [List.length_take, List.length_drop, List.length_drop, hshuf]
    omega
  have hfull : (MonteCarlo.fullCommunity (knownCards.drop 2)
      (5 - (knownCards.drop 2).length)
      (MonteCarlo.shuffleArray rand remainingDeck)).length = 5 := by
    unfold MonteCarlo.fullCommunity
    rw [List.length_append, haddl, hdl]
    omega
  refine ⟨rfl, ?_, haddl, hfull, rfl, rfl, ?_, ?_⟩
  · unfold MonteCarlo.additionalCommunity
    rw [hdl]
  · unfold MonteCarlo.playerCards
    rw [List.length_append, htl, hfull]
  · unfold MonteCarlo.dealerCards
    rw [List.length_append, hfull]
    unfold MonteCarlo.dealerHole
    rw [List.length_take, hshuf]
    omega

theorem iteration_dealing_structure_witness :
    MonteCarlo.dealerHole (MonteCarlo.shuffleArray (fun _ => 0)
        ["2h", "3h", "4h", "5h", "6h", "7h", "8h"]) =
      (MonteCarlo.shuffleArray (fun _ => 0)
        ["2h", "3h", "4h", "5h", "6h", "7h", "8h"]).take 2 ∧
    MonteCarlo.additionalCommunity (5 - ((["Ah", "Ad"] : List String).drop 2).length)
        (MonteCarlo.shuffleArray (fun _ => 0) ["2h", "3h", "4h", "5h", "6h", "7h", "8h"]) =
      ((MonteCarlo.shuffleArray (fun _ => 0)
        ["2h", "3h", "4h", "5h", "6h", "7h", "8h"]).drop 2).take
        (5 - ((["Ah", "Ad"] : List String).length - 2)) ∧
    (MonteCarlo.additionalCommunity (5 - ((["Ah", "Ad"] : List String).drop 2).length)
        (MonteCarlo.shuffleArray (fun _ => 0)
          ["2h", "3h", "4h", "5h", "6h", "7h", "8h"])).length =
      5 - ((["Ah", "Ad"] : List String).length - 2) ∧
    (MonteCarlo.fullCommunity ((["Ah", "Ad"] : List String).drop 2)
        (5 - ((["Ah", "Ad"] : List String).drop 2).length)
        (MonteCarlo.shuffleArray (fun _ => 0)
          ["2h", "3h", "4h", "5h", "6h", "7h", "8h"])).length = 5 ∧
    MonteCarlo.playerCards ((["Ah", "Ad"] : List String).take 2)
        ((["Ah", "Ad"] : List String).drop 2)
        (5 - ((["Ah", "Ad"] : List String).drop 2).length)
        (MonteCarlo.shuffleArray (fun _ => 0) ["2h", "3h", "4h", "5h", "6h", "7h", "8h"]) =
      (["Ah", "Ad"] : List String).take 2 ++
        MonteCarlo.fullCommunity ((["Ah", "Ad"] : List String).drop 2)
          (5 - ((["Ah", "Ad"] : List String).drop 2).length)
          (MonteCarlo.shuffleArray (fun _ => 0)
            ["2h", "3h", "4h", "5h", "6h", "7h", "8h"]) ∧
    MonteCarlo.dealerCards ((["Ah", "Ad"] : List String).drop 2)
        (5 - ((["Ah", "Ad"] : List String).drop 2).length)
        (MonteCarlo.shuffleArray (fun _ => 0) ["2h", "3h", "4h", "5h", "6h", "7h", "8h"]) =
      (MonteCarlo.shuffleArray (fun _ => 0)
          ["2h", "3h", "4h", "5h", "6h", "7h", "8h"]).take 2 ++
        MonteCarlo.fullCommunity ((["Ah", "Ad"] : List String).drop 2)
          (5 - ((["Ah", "Ad"] : List String).drop 2).length)
          (MonteCarlo.shuffleArray (fun _ => 0)
            ["2h", "3h", "4h", "5h", "6h", "7h", "8h"]) ∧
    (MonteCarlo.playerCards ((["Ah", "Ad"] : List String).take 2)
        ((["Ah", "Ad"] : List String).drop 2)
        (5 - ((["Ah", "Ad"] : List String).drop 2).length)
        (MonteCarlo.shuffleArray (fun _ => 0)
          ["2h", "3h", "4h", "5h", "6h", "7h", "8h"])).length = 7 ∧
    (MonteCarlo.dealerCards ((["Ah", "Ad"] : List String).drop 2)
        (5 - ((["Ah", "Ad"] : List String).drop 2).length)
        (MonteCarlo.shuffleArray (fun _ => 0)
          ["2h", "3h", "4h", "5h", "6h", "7h", "8h"])).length = 7 :=
  iteration_dealing_structure (fun _ => 0) ["Ah", "Ad"]
    ["2h", "3h", "4h", "5h", "6h", "7h", "8h"] (by decide) (by decide) (by decide)

/-- C2: in every successful call, each percentage equals the matching
outcome counter divided by the valid-iteration count times 100, and the
three percentages sum to exactly 100 — in particular within the
floating-point tolerance 1e-6 × 100. -/
theorem percentages_eq_counters (solve : MonteCarlo.SolveFn)
    (winners : MonteCarlo.WinnersFn) (rand : MonteCarlo.RandFn)
    (knownCards : List String) (iterations : Nat) (r : MonteCarlo.SimulationResult)
    (h : MonteCarlo.monteCarloSimulation solve winners rand knownCards iterations =
      .ok r) :
    r.win = ((MonteCarlo.simTotals solve winners rand knownCards
          (MonteCarlo.remainingDeckOf knownCards) iterations).wins : ℚ) /
        ((MonteCarlo.simTotals solve winners rand knownCards
          (MonteCarlo.remainingDeckOf knownCards) iterations).processed : ℚ) * 100 ∧
    r.tie = ((MonteCarlo.simTotals solve winners rand knownCards
          (MonteCarlo.remainingDeckOf knownCards) iterations).ties : ℚ) /
        ((MonteCarlo.simTotals solve winners rand knownCards
          (MonteCarlo.remainingDeckOf knownCards) iterations).processed : ℚ) * 100 ∧
    r.lose = ((MonteCarlo.simTotals solve winners rand knownCards
          (MonteCarlo.remainingDeckOf knownCards) iterations).losses : ℚ) /
        ((MonteCarlo.simTotals solve winners rand knownCards
          (MonteCarlo.remainingDeckOf knownCards) iterations).processed : ℚ) * 100 ∧
    r.win + r.tie + r.lose = 100 ∧
    |r.win + r.tie + r.lose - 100| ≤ (1 : ℚ) / 1000000 * 100 := by
  have hsum := MonteCarlo.monteCarloSimulation_ok_sum solve winners rand knownCards
    iterations r h
  rcases MonteCarlo.monteCarloSimulation_ok_elim solve winners rand knownCards
    iterations r h with ⟨hp, hr⟩
  refine ⟨?_, ?_, ?_, hsum, ?_⟩
  · rw [hr]
  · rw [hr]
  · rw [hr]
  · rw [hsum]
    simp

theorem percentages_eq_counters_witness :
    (⟨((MonteCarlo.simTotals (fun _ => .ok 0) (fun _ => .ok [0]) (fun _ _ => 0)
        ["Ah", "Ad"] (MonteCarlo.remainingDeckOf ["Ah", "Ad"]) 1).wins : ℚ) / ((MonteCarlo.simTotals (fun _ => .ok 0) (fun _ => .ok [0]) (fun _ _ => 0)
        ["Ah", "Ad"] (MonteCarlo.remainingDeckOf ["Ah", "Ad"]) 1).processed : ℚ) * 100,
        ((MonteCarlo.simTotals (fun _ => .ok 0) (fun _ => .ok [0]) (fun _ _ => 0)
        ["Ah", "Ad"] (MonteCarlo.remainingDeckOf ["Ah", "Ad"]) 1).ties : ℚ) / ((MonteCarlo.simTotals (fun _ => .ok 0) (fun _ => .ok [0]) (fun _ _ => 0)
        ["Ah", "Ad"] (MonteCarlo.remainingDeckOf ["Ah", "Ad"]) 1).processed : ℚ) * 100,
        ((MonteCarlo.simTotals (fun _ => .ok 0) (fun _ => .ok [0]) (fun _ _ => 0)
        ["Ah", "Ad"] (MonteCarlo.remainingDeckOf ["Ah", "Ad"]) 1).losses : ℚ) / ((MonteCarlo.simTotals (fun _ => .ok 0) (fun _ => .ok [0]) (fun _ _ => 0)
        ["Ah", "Ad"] (MonteCarlo.remainingDeckOf ["Ah", "Ad"]) 1).processed : ℚ) * 100,
        (MonteCarlo.simTotals (fun _ => .ok 0) (fun _ => .ok [0]) (fun _ _ => 0)
        ["Ah", "Ad"] (MonteCarlo.remainingDeckOf ["Ah", "Ad"]) 1).processed⟩ : MonteCarlo.SimulationResult).win =
        ((MonteCarlo.simTotals (fun _ => .ok 0) (fun _ => .ok [0]) (fun _ _ => 0)
        ["Ah", "Ad"] (MonteCarlo.remainingDeckOf ["Ah", "Ad"]) 1).wins : ℚ) / ((MonteCarlo.simTotals (fun _ => .ok 0) (fun _ => .ok [0]) (fun _ _ => 0)
        ["Ah", "Ad"] (MonteCarlo.remainingDeckOf ["Ah", "Ad"]) 1).processed : ℚ) * 100 ∧
      (⟨((MonteCarlo.simTotals (fun _ => .ok 0) (fun _ => .ok [0]) (fun _ _ => 0)
        ["Ah", "Ad"] (MonteCarlo.remainingDeckOf ["Ah", "Ad"]) 1).wins : ℚ) / ((MonteCarlo.simTotals (fun _ => .ok 0) (fun _ => .ok [0]) (fun _ _ => 0)
        ["Ah", "Ad"] (MonteCarlo.remainingDeckOf ["Ah", "Ad"]) 1).processed : ℚ) * 100,
        ((MonteCarlo.simTotals (fun _ => .ok 0) (fun _ => .ok [0]) (fun _ _ => 0)
        ["Ah", "Ad"] (MonteCarlo.remainingDeckOf ["Ah", "Ad"]) 1).ties : ℚ) / ((MonteCarlo.simTotals (fun _ => .ok 0) (fun _ => .ok [0]) (fun _ _ => 0)
        ["Ah", "Ad"] (MonteCarlo.remainingDeckOf ["Ah", "Ad"]) 1).processed : ℚ) * 100,
        ((MonteCarlo.simTotals (fun _ => .ok 0) (fun _ => .ok [0]) (fun _ _ => 0)
        ["Ah", "Ad"] (MonteCarlo.remainingDeckOf ["Ah", "Ad"]) 1).losses : ℚ) / ((MonteCarlo.simTotals (fun _ => .ok 0) (fun _ => .ok [0]) (fun _ _ => 0)
        ["Ah", "Ad"] (MonteCarlo.remainingDeckOf ["Ah", "Ad"]) 1).processed : ℚ) * 100,
        (MonteCarlo.simTotals (fun _ => .ok 0) (fun _ => .ok [0]) (fun _ _ => 0)
        ["Ah", "Ad"] (MonteCarlo.remainingDeckOf ["Ah", "Ad"]) 1).processed⟩ : MonteCarlo.SimulationResult).tie =
        ((MonteCarlo.simTotals (fun _ => .ok 0) (fun _ => .ok [0]) (fun _ _ => 0)
        ["Ah", "Ad"] (MonteCarlo.remainingDeckOf ["Ah", "Ad"]) 1).ties : ℚ) / ((MonteCarlo.simTotals (fun _ => .ok 0) (fun _ => .ok [0]) (fun _ _ => 0)
        ["Ah", "Ad"] (MonteCarlo.remainingDeckOf ["Ah", "Ad"]) 1).processed : ℚ) * 100 ∧
      (⟨((MonteCarlo.simTotals (fun _ => .ok 0) (fun _ => .ok [0]) (fun _ _ => 0)
        ["Ah", "Ad"] (MonteCarlo.remainingDeckOf ["Ah", "Ad"]) 1).wins : ℚ) / ((MonteCarlo.simTotals (fun _ => .ok 0) (fun _ => .ok [0]) (fun _ _ => 0)
        ["Ah", "Ad"] (MonteCarlo.remainingDeckOf ["Ah", "Ad"]) 1).processed : ℚ) * 100,
        ((MonteCarlo.simTotals (fun _ => .ok 0) (fun _ => .ok [0]) (fun _ _ => 0)
        ["Ah", "Ad"] (MonteCarlo.remainingDeckOf ["Ah", "Ad"]) 1).ties : ℚ) / ((MonteCarlo.simTotals (fun _ => .ok 0) (fun _ => .ok [0]) (fun _ _ => 0)
        ["Ah", "Ad"] (MonteCarlo.remainingDeckOf ["Ah", "Ad"]) 1).processed : ℚ) * 100,
        ((MonteCarlo.simTotals (fun _ => .ok 0) (fun _ => .ok [0]) (fun _ _ => 0)
        ["Ah", "Ad"] (MonteCarlo.remainingDeckOf ["Ah", "Ad"]) 1).losses : ℚ) / ((MonteCarlo.simTotals (fun _ => .ok 0) (fun _ => .ok [0]) (fun _ _ => 0)
        ["Ah", "Ad"] (MonteCarlo.remainingDeckOf ["Ah", "Ad"]) 1).processed : ℚ) * 100,
        (MonteCarlo.simTotals (fun _ => .ok 0) (fun _ => .ok [0]) (fun _ _ => 0)
        ["Ah", "Ad"] (MonteCarlo.remainingDeckOf ["Ah", "Ad"]) 1).processed⟩ : MonteCarlo.SimulationResult).lose =
        ((MonteCarlo.simTotals (fun _ => .ok 0) (fun _ => .ok [0]) (fun _ _ => 0)
        ["Ah", "Ad"] (MonteCarlo.remainingDeckOf ["Ah", "Ad"]) 1).losses : ℚ) / ((MonteCarlo.simTotals (fun _ => .ok 0) (fun _ => .ok [0]) (fun _ _ => 0)
        ["Ah", "Ad"] (MonteCarlo.remainingDeckOf ["Ah", "Ad"]) 1).processed : ℚ) * 100 ∧
      (⟨((MonteCarlo.simTotals (fun _ => .ok 0) (fun _ => .ok [0]) (fun _ _ => 0)
        ["Ah", "Ad"] (MonteCarlo.remainingDeckOf ["Ah", "Ad"]) 1).wins : ℚ) / ((MonteCarlo.simTotals (fun _ => .ok 0) (fun _ => .ok [0]) (fun _ _ => 0)
        ["Ah", "Ad"] (MonteCarlo.remainingDeckOf ["Ah", "Ad"]) 1).processed : ℚ) * 100,
        ((MonteCarlo.simTotals (fun _ => .ok 0) (fun _ => .ok [0]) (fun _ _ => 0)
        ["Ah", "Ad"] (MonteCarlo.remainingDeckOf ["Ah", "Ad"]) 1).ties : ℚ) / ((MonteCarlo.simTotals (fun _ => .ok 0) (fun _ => .ok [0]) (fun _ _ => 0)
        ["Ah", "Ad"] (MonteCarlo.remainingDeckOf ["Ah", "Ad"]) 1).processed : ℚ) * 100,
        ((MonteCarlo.simTotals (fun _ => .ok 0) (fun _ => .ok [0]) (fun _ _ => 0)
        ["Ah", "Ad"] (MonteCarlo.remainingDeckOf ["Ah", "Ad"]) 1).losses : ℚ) / ((MonteCarlo.simTotals (fun _ => .ok 0) (fun _ => .ok [0]) (fun _ _ => 0)
        ["Ah", "Ad"] (MonteCarlo.remainingDeckOf ["Ah", "Ad"]) 1).processed : ℚ) * 100,
        (MonteCarlo.simTotals (fun _ => .ok 0) (fun _ => .ok [0]) (fun _ _ => 0)
        ["Ah", "Ad"] (MonteCarlo.remainingDeckOf ["Ah", "Ad"]) 1).processed⟩ : MonteCarlo.SimulationResult).win + (⟨((MonteCarlo.simTotals (fun _ => .ok 0) (fun _ => .ok [0]) (fun _ _ => 0)
        ["Ah", "Ad"] (MonteCarlo.remainingDeckOf ["Ah", "Ad"]) 1).wins : ℚ) / ((MonteCarlo.simTotals (fun _ => .ok 0) (fun _ => .ok [0]) (fun _ _ => 0)
        ["Ah", "Ad"] (MonteCarlo.remainingDeckOf ["Ah", "Ad"]) 1).processed : ℚ) * 100,
        ((MonteCarlo.simTotals (fun _ => .ok 0) (fun _ => .ok [0]) (fun _ _ => 0)
        ["Ah", "Ad"] (MonteCarlo.remainingDeckOf ["Ah", "Ad"]) 1).ties : ℚ) / ((MonteCarlo.simTotals (fun _ => .ok 0) (fun _ => .ok [0]) (fun _ _ => 0)
        ["Ah", "Ad"] (MonteCarlo.remainingDeckOf ["Ah", "Ad"]) 1).processed : ℚ) * 100,
        ((MonteCarlo.simTotals (fun _ => .ok 0) (fun _ => .ok [0]) (fun _ _ => 0)
        ["Ah", "Ad"] (MonteCarlo.remainingDeckOf ["Ah", "Ad"]) 1).losses : ℚ) / ((MonteCarlo.simTotals (fun _ => .ok 0) (fun _ => .ok [0]) (fun _ _ => 0)
        ["Ah", "Ad"] (MonteCarlo.remainingDeckOf ["Ah", "Ad"]) 1).processed : ℚ) * 100,
        (MonteCarlo.simTotals (fun _ => .ok 0) (fun _ => .ok [0]) (fun _ _ => 0)
        ["Ah", "Ad"] (MonteCarlo.remainingDeckOf ["Ah", "Ad"]) 1).processed⟩ : MonteCarlo.SimulationResult).tie + (⟨((MonteCarlo.simTotals (fun _ => .ok 0) (fun _ => .ok [0]) (fun _ _ => 0)
        ["Ah", "Ad"] (MonteCarlo.remainingDeckOf ["Ah", "Ad"]) 1).wins : ℚ) / ((MonteCarlo.simTotals (fun _ => .ok 0) (fun _ => .ok [0]) (fun _ _ => 0)
        ["Ah", "Ad"] (MonteCarlo.remainingDeckOf ["Ah", "Ad"]) 1).processed : ℚ) * 100,
        ((MonteCarlo.simTotals (fun _ => .ok 0) (fun _ => .ok [0]) (fun _ _ => 0)
        ["Ah", "Ad"] (MonteCarlo.remainingDeckOf ["Ah", "Ad"]) 1).ties : ℚ) / ((MonteCarlo.simTotals (fun _ => .ok 0) (fun _ => .ok [0]) (fun _ _ => 0)
        ["Ah", "Ad"] (MonteCarlo.remainingDeckOf ["Ah", "Ad"]) 1).processed : ℚ) * 100,
        ((MonteCarlo.simTotals (fun _ => .ok 0) (fun _ => .ok [0]) (fun _ _ => 0)
        ["Ah", "Ad"] (MonteCarlo.remainingDeckOf ["Ah", "Ad"]) 1).losses : ℚ) / ((MonteCarlo.simTotals (fun _ => .ok 0) (fun _ => .ok [0]) (fun _ _ => 0)
        ["Ah", "Ad"] (MonteCarlo.remainingDeckOf ["Ah", "Ad"]) 1).processed : ℚ) * 100,
        (MonteCarlo.simTotals (fun _ => .ok 0) (fun _ => .ok [0]) (fun _ _ => 0)
        ["Ah", "Ad"] (MonteCarlo.remainingDeckOf ["Ah", "Ad"]) 1).processed⟩ : MonteCarlo.SimulationResult).lose = 100 ∧
      |(⟨((MonteCarlo.simTotals (fun _ => .ok 0) (fun _ => .ok [0]) (fun _ _ => 0)
        ["Ah", "Ad"] (MonteCarlo.remainingDeckOf ["Ah", "Ad"]) 1).wins : ℚ) / ((MonteCarlo.simTotals (fun _ => .ok 0) (fun _ => .ok [0]) (fun _ _ => 0)
        ["Ah", "Ad"] (MonteCarlo.remainingDeckOf ["Ah", "Ad"]) 1).processed : ℚ) * 100,
        ((MonteCarlo.simTotals (fun _ => .ok 0) (fun _ => .ok [0]) (fun _ _ => 0)
        ["Ah", "Ad"] (MonteCarlo.remainingDeckOf ["Ah", "Ad"]) 1).ties : ℚ) / ((MonteCarlo.simTotals (fun _ => .ok 0) (fun _ => .ok [0]) (fun _ _ => 0)
        ["Ah", "Ad"] (MonteCarlo.remainingDeckOf ["Ah", "Ad"]) 1).processed : ℚ) * 100,
        ((MonteCarlo.simTotals (fun _ => .ok 0) (fun _ => .ok [0]) (fun _ _ => 0)
        ["Ah", "Ad"] (MonteCarlo.remainingDeckOf ["Ah", "Ad"]) 1).losses : ℚ) / ((MonteCarlo.simTotals (fun _ => .ok 0) (fun _ => .ok [0]) (fun _ _ => 0)
        ["Ah", "Ad"] (MonteCarlo.remainingDeckOf ["Ah", "Ad"]) 1).processed : ℚ) * 100,
        (MonteCarlo.simTotals (fun _ => .ok 0) (fun _ => .ok [0]) (fun _ _ => 0)
        ["Ah", "Ad"] (MonteCarlo.remainingDeckOf ["Ah", "Ad"]) 1).processed⟩ : MonteCarlo.SimulationResult).win + (⟨((MonteCarlo.simTotals (fun _ => .ok 0) (fun _ => .ok [0]) (fun _ _ => 0)
        ["Ah", "Ad"] (MonteCarlo.remainingDeckOf ["Ah", "Ad"]) 1).wins : ℚ) / ((MonteCarlo.simTotals (fun _ => .ok 0) (fun _ => .ok [0]) (fun _ _ => 0)
        ["Ah", "Ad"] (MonteCarlo.remainingDeckOf ["Ah", "Ad"]) 1).processed : ℚ) * 100,
        ((MonteCarlo.simTotals (fun _ => .ok 0) (fun _ => .ok [0]) (fun _ _ => 0)
        ["Ah", "Ad"] (MonteCarlo.remainingDeckOf ["Ah", "Ad"]) 1).ties : ℚ) / ((MonteCarlo.simTotals (fun _ => .ok 0) (fun _ => .ok [0]) (fun _ _ => 0)
        ["Ah", "Ad"] (MonteCarlo.remainingDeckOf ["Ah", "Ad"]) 1).processed : ℚ) * 100,
        ((MonteCarlo.simTotals (fun _ => .ok 0) (fun _ => .ok [0]) (fun _ _ => 0)
        ["Ah", "Ad"] (MonteCarlo.remainingDeckOf ["Ah", "Ad"]) 1).losses : ℚ) / ((MonteCarlo.simTotals (fun _ => .ok 0) (fun _ => .ok [0]) (fun _ _ => 0)
        ["Ah", "Ad"] (MonteCarlo.remainingDeckOf ["Ah", "Ad"]) 1).processed : ℚ) * 100,
        (MonteCarlo.simTotals (fun _ => .ok 0) (fun _ => .ok [0]) (fun _ _ => 0)
        ["Ah", "Ad"] (MonteCarlo.remainingDeckOf ["Ah", "Ad"]) 1).processed⟩ : MonteCarlo.SimulationResult).tie + (⟨((MonteCarlo.simTotals (fun _ => .ok 0) (fun _ => .ok [0]) (fun _ _ => 0)
        ["Ah", "Ad"] (MonteCarlo.remainingDeckOf ["Ah", "Ad"]) 1).wins : ℚ) / ((MonteCarlo.simTotals (fun _ => .ok 0) (fun _ => .ok [0]) (fun _ _ => 0)
        ["Ah", "Ad"] (MonteCarlo.remainingDeckOf ["Ah", "Ad"]) 1).processed : ℚ) * 100,
        ((MonteCarlo.simTotals (fun _ => .ok 0) (fun _ => .ok [0]) (fun _ _ => 0)
        ["Ah", "Ad"] (MonteCarlo.remainingDeckOf ["Ah", "Ad"]) 1).ties : ℚ) / ((MonteCarlo.simTotals (fun _ => .ok 0) (fun _ => .ok [0]) (fun _ _ => 0)
        ["Ah", "Ad"] (MonteCarlo.remainingDeckOf ["Ah", "Ad"]) 1).processed : ℚ) * 100,
        ((MonteCarlo.simTotals (fun _ => .ok 0) (fun _ => .ok [0]) (fun _ _ => 0)
        ["Ah", "Ad"] (MonteCarlo.remainingDeckOf ["Ah", "Ad"]) 1).losses : ℚ) / ((MonteCarlo.simTotals (fun _ => .ok 0) (fun _ => .ok [0]) (fun _ _ => 0)
        ["Ah", "Ad"] (MonteCarlo.remainingDeckOf ["Ah", "Ad"]) 1).processed : ℚ) * 100,
        (MonteCarlo.simTotals (fun _ => .ok 0) (fun _ => .ok [0]) (fun _ _ => 0)
        ["Ah", "Ad"] (MonteCarlo.remainingDeckOf ["Ah", "Ad"]) 1).processed⟩ : MonteCarlo.SimulationResult).lose - 100| ≤ (1 : ℚ) / 1000000 * 100 :=
  percentages_eq_counters (fun _ => .ok 0) (fun _ => .ok [0]) (fun _ _ => 0)
    ["Ah", "Ad"] 1 _
    (MonteCarlo.monteCarloSimulation_eq_ok (fun _ => .ok 0) (fun _ => .ok [0])
      (fun _ _ => 0) ["Ah", "Ad"] 1 (by decide) (by decide) (by decide) (by decide)
      (by decide) (by decide))

/-- C3: in every successful call the `iterations` field equals the number
of iterations that produced a valid win/tie/lose classification — the
processed count, which counts exactly the iterations whose classification
was not skipped, batch by batch — and never exceeds the requested
iteration count. -/
theorem iterations_valid_count (solve : MonteCarlo.SolveFn)
    (winners : MonteCarlo.WinnersFn) (rand : MonteCarlo.RandFn)
    (knownCards : List String) (iterations : Nat) (r : MonteCarlo.SimulationResult)
    (h : MonteCarlo.monteCarloSimulation solve winners rand knownCards iterations =
      .ok r) :
    r.iterations = (MonteCarlo.simTotals solve winners rand knownCards
        (MonteCarlo.remainingDeckOf knownCards) iterations).processed ∧
    (MonteCarlo.simTotals solve winners rand knownCards
        (MonteCarlo.remainingDeckOf knownCards) iterations).processed =
      ∑ b ∈ Finset.range (MonteCarlo.totalBatches iterations),
        (List.range (min MonteCarlo.batchSize
            (iterations - b * MonteCarlo.batchSize))).countP
          (fun i => (MonteCarlo.iterClass solve winners
            (fun k => rand (b * MonteCarlo.batchSize + k)) knownCards
            (MonteCarlo.remainingDeckOf knownCards) i).isSome) ∧
    r.iterations ≤ iterations := by
  rcases MonteCarlo.monteCarloSimulation_ok_elim solve winners rand knownCards
    iterations r h with ⟨hp, hr⟩
  subst hr
  refine ⟨rfl, ?_, ?_⟩
  · exact MonteCarlo.simTotalsUpTo_processed_eq solve winners rand knownCards
      (MonteCarlo.remainingDeckOf knownCards) iterations
      (MonteCarlo.totalBatches iterations)
  · exact MonteCarlo.simTotals_processed_le solve winners rand knownCards
      (MonteCarlo.remainingDeckOf knownCards) iterations

theorem iterations_valid_count_witness :
    (⟨((MonteCarlo.simTotals (fun _ => .ok 0) (fun _ => .ok [0]) (fun _ _ => 0)
        ["Ah", "Ad"] (MonteCarlo.remainingDeckOf ["Ah", "Ad"]) 1).wins : ℚ) / ((MonteCarlo.simTotals (fun _ => .ok 0) (fun _ => .ok [0]) (fun _ _ => 0)
        ["Ah", "Ad"] (MonteCarlo.remainingDeckOf ["Ah", "Ad"]) 1).processed : ℚ) * 100,
        ((MonteCarlo.simTotals (fun _ => .ok 0) (fun _ => .ok [0]) (fun _ _ => 0)
        ["Ah", "Ad"] (MonteCarlo.remainingDeckOf ["Ah", "Ad"]) 1).ties : ℚ) / ((MonteCarlo.simTotals (fun _ => .ok 0) (fun _ => .ok [0]) (fun _ _ => 0)
        ["Ah", "Ad"] (MonteCarlo.remainingDeckOf ["Ah", "Ad"]) 1).processed : ℚ) * 100,
        ((MonteCarlo.simTotals (fun _ => .ok 0) (fun _ => .ok [0]) (fun _ _ => 0)
        ["Ah", "Ad"] (MonteCarlo.remainingDeckOf ["Ah", "Ad"]) 1).losses : ℚ) / ((MonteCarlo.simTotals (fun _ => .ok 0) (fun _ => .ok [0]) (fun _ _ => 0)
        ["Ah", "Ad"] (MonteCarlo.remainingDeckOf ["Ah", "Ad"]) 1).processed : ℚ) * 100,
        (MonteCarlo.simTotals (fun _ => .ok 0) (fun _ => .ok [0]) (fun _ _ => 0)
        ["Ah", "Ad"] (MonteCarlo.remainingDeckOf ["Ah", "Ad"]) 1).processed⟩ : MonteCarlo.SimulationResult).iterations = (MonteCarlo.simTotals (fun _ => .ok 0) (fun _ => .ok [0]) (fun _ _ => 0)
        ["Ah", "Ad"] (MonteCarlo.remainingDeckOf ["Ah", "Ad"]) 1).processed ∧
      (MonteCarlo.simTotals (fun _ => .ok 0) (fun _ => .ok [0]) (fun _ _ => 0)
        ["Ah", "Ad"] (MonteCarlo.remainingDeckOf ["Ah", "Ad"]) 1).processed =
        ∑ b ∈ Finset.range (MonteCarlo.totalBatches 1),
          (List.range (min MonteCarlo.batchSize (1 - b * MonteCarlo.batchSize))).countP
            (fun i => (MonteCarlo.iterClass (fun _ => .ok 0) (fun _ => .ok [0])
              (fun k => (fun _ _ => (0 : Nat)) (b * MonteCarlo.batchSize + k))
              ["Ah", "Ad"] (MonteCarlo.remainingDeckOf ["Ah", "Ad"]) i).isSome) ∧
      (⟨((MonteCarlo.simTotals (fun _ => .ok 0) (fun _ => .ok [0]) (fun _ _ => 0)
        ["Ah", "Ad"] (MonteCarlo.remainingDeckOf ["Ah", "Ad"]) 1).wins : ℚ) / ((MonteCarlo.simTotals (fun _ => .ok 0) (fun _ => .ok [0]) (fun _ _ => 0)
        ["Ah", "Ad"] (MonteCarlo.remainingDeckOf ["Ah", "Ad"]) 1).processed : ℚ) * 100,
        ((MonteCarlo.simTotals (fun _ => .ok 0) (fun _ => .ok [0]) (fun _ _ => 0)
        ["Ah", "Ad"] (MonteCarlo.remainingDeckOf ["Ah", "Ad"]) 1).ties : ℚ) / ((MonteCarlo.simTotals (fun _ => .ok 0) (fun _ => .ok [0]) (fun _ _ => 0)
        ["Ah", "Ad"] (MonteCarlo.remainingDeckOf ["Ah", "Ad"]) 1).processed : ℚ) * 100,
        ((MonteCarlo.simTotals (fun _ => .ok 0) (fun _ => .ok [0]) (fun _ _ => 0)
        ["Ah", "Ad"] (MonteCarlo.remainingDeckOf ["Ah", "Ad"]) 1).losses : ℚ) / ((MonteCarlo.simTotals (fun _ => .ok 0) (fun _ => .ok [0]) (fun _ _ => 0)
        ["Ah", "Ad"] (MonteCarlo.remainingDeckOf ["Ah", "Ad"]) 1).processed : ℚ) * 100,
        (MonteCarlo.simTotals (fun _ => .ok 0) (fun _ => .ok [0]) (fun _ _ => 0)
        ["Ah", "Ad"] (MonteCarlo.remainingDeckOf ["Ah", "Ad"]) 1).processed⟩ : MonteCarlo.SimulationResult).iterations ≤ 1 :=
  iterations_valid_count (fun _ => .ok 0) (fun _ => .ok [0]) (fun _ _ => 0)
    ["Ah", "Ad"] 1 _
    (MonteCarlo.monteCarloSimulation_eq_ok (fun _ => .ok 0) (fun _ => .ok [0])
      (fun _ _ => 0) ["Ah", "Ad"] 1 (by decide) (by decide) (by decide) (by decide)
      (by decide) (by decide))

/-- C5: a skipped iteration (one whose dealing/ranking/comparison chain
threw) increments no counter — each counter counts exactly the iterations
with the matching valid classification — and per-iteration failures never
surface as call-level errors: with valid inputs the call either succeeds
or, exactly when zero iterations were classified, fails with the
no-valid-iterations message; every possible error is one of the source's
validation messages. -/
theorem iteration_failures_contained (solve : MonteCarlo.SolveFn)
    (winners : MonteCarlo.WinnersFn) (rand : MonteCarlo.RandFn)
    (knownCards : List String) (iterations : Nat)
    (h2 : 2 ≤ knownCards.length) (h7 : knownCards.length ≤ 7)
    (hv : ∀ c ∈ knownCards, MonteCarlo.isValidCard c = true)
    (hnd : knownCards.Nodup) :
    (MonteCarlo.simTotals solve winners rand knownCards
        (MonteCarlo.remainingDeckOf knownCards) iterations).wins =
      (∑ b ∈ Finset.range (MonteCarlo.totalBatches iterations),
        (List.range (min MonteCarlo.batchSize
            (iterations - b * MonteCarlo.batchSize))).countP
          (fun i => decide (MonteCarlo.iterClass solve winners
            (fun k => rand (b * MonteCarlo.batchSize + k)) knownCards
            (MonteCarlo.remainingDeckOf knownCards) i =
              some MonteCarlo.IterResult.win))) ∧
    (MonteCarlo.simTotals solve winners rand knownCards
        (MonteCarlo.remainingDeckOf knownCards) iterations).ties =
      (∑ b ∈ Finset.range (MonteCarlo.totalBatches iterations),
        (List.range (min MonteCarlo.batchSize
            (iterations - b * MonteCarlo.batchSize))).countP
          (fun i => decide (MonteCarlo.iterClass solve winners
            (fun k => rand (b * MonteCarlo.batchSize + k)) knownCards
            (MonteCarlo.remainingDeckOf knownCards) i =
              some MonteCarlo.IterResult.tie))) ∧
    (MonteCarlo.simTotals solve winners rand knownCards
        (MonteCarlo.remainingDeckOf knownCards) iterations).losses =
      (∑ b ∈ Finset.range (MonteCarlo.totalBatches iterations),
        (List.range (min MonteCarlo.batchSize
            (iterations - b * MonteCarlo.batchSize))).countP
          (fun i => decide (MonteCarlo.iterClass solve winners
            (fun k => rand (b * MonteCarlo.batchSize + k)) knownCards
            (MonteCarlo.remainingDeckOf knownCards) i =
              some MonteCarlo.IterResult.lose))) ∧
    (MonteCarlo.simTotals solve winners rand knownCards
        (MonteCarlo.remainingDeckOf knownCards) iterations).processed =
      (∑ b ∈ Finset.range (MonteCarlo.totalBatches iterations),
        (List.range (min MonteCarlo.batchSize
            (iterations - b * MonteCarlo.batchSize))).countP
          (fun i => (MonteCarlo.iterClass solve winners
            (fun k => rand (b * MonteCarlo.batchSize + k)) knownCards
            (MonteCarlo.remainingDeckOf knownCards) i).isSome)) ∧
    ((MonteCarlo.simTotals solve winners rand knownCards
        (MonteCarlo.remainingDeckOf knownCards) iterations).processed = 0 →
      MonteCarlo.monteCarloSimulation solve winners rand knownCards iterations =
        .error ("No valid iterations completed")) ∧
    ((MonteCarlo.simTotals solve winners rand knownCards
        (MonteCarlo.remainingDeckOf knownCards) iterations).processed ≠ 0 →
      ∃ r, MonteCarlo.monteCarloSimulation solve winners rand knownCards iterations =
        .ok r) ∧
    (∀ msg, MonteCarlo.monteCarloSimulation solve winners rand knownCards iterations =
      .error msg → msg ∈ MonteCarlo.simulationErrorMessages knownCards) := by
  have hsub : ∀ c ∈ knownCards, c ∈ MonteCarlo.generateDeck := fun c hc =>
    (MonteCarlo.isValidCard_iff c).mp (hv c hc)
  have hlen := MonteCarlo.length_remainingDeck knownCards hsub hnd
  have hfind : knownCards.find? (fun c => !(MonteCarlo.isValidCard c)) = none :=
    List.find?_eq_none.mpr fun c hc => by simp [hv c hc]
  have hded : ¬ knownCards.dedup.length ≠ knownCards.length := fun heq =>
    heq (congrArg List.length (List.dedup_eq_self.mpr hnd))
  refine ⟨?_, ?_, ?_, ?_, ?_, ?_, ?_⟩
  · exact MonteCarlo.simTotalsUpTo_wins_eq solve winners rand knownCards
      (MonteCarlo.remainingDeckOf knownCards) iterations
      (MonteCarlo.totalBatches iterations)
  · exact MonteCarlo.simTotalsUpTo_ties_eq solve winners rand knownCards
      (MonteCarlo.remainingDeckOf knownCards) iterations
      (MonteCarlo.totalBatches iterations)
  · exact MonteCarlo.simTotalsUpTo_losses_eq solve winners rand knownCards
      (MonteCarlo.remainingDeckOf knownCards) iterations
      (MonteCarlo.totalBatches iterations)
  · exact MonteCarlo.simTotalsUpTo_processed_eq solve winners rand knownCards
      (MonteCarlo.remainingDeckOf knownCards) iterations
      (MonteCarlo.totalBatches iterations)
  · intro hp
    exact MonteCarlo.monteCarloSimulation_eq_error_noValid solve winners rand knownCards
      iterations (by omega) (by omega) hfind hded (by omega) hp
  · intro hp
    exact ⟨_, MonteCarlo.monteCarloSimulation_eq_ok solve winners rand knownCards
      iterations (by omega) (by omega) hfind hded (by omega) hp⟩
  · intro msg h
    exact MonteCarlo.monteCarloSimulation_error_mem solve winners rand knownCards
      iterations msg h

theorem iteration_failures_contained_witness :
    MonteCarlo.monteCarloSimulation (fun _ => .error ()) (fun _ => .ok [0])
        (fun _ _ => 0) ["Ah", "Ad"] 1 = .error ("No valid iterations completed") :=
  (iteration_failures_contained (fun _ => .error ()) (fun _ => .ok [0]) (fun _ _ => 0)
    ["Ah", "Ad"] 1 (by decide) (by decide) (by decide) (by decide)).2.2.2.2.1
    (by decide)

/-- C10: the tally invariant `wins + ties + losses = processed` holds —
each step increments the matching counter and the processed count exactly
when the iteration is valid and nothing otherwise, the accumulated totals
satisfy the invariant at every batch boundary and at aggregation, and
consequently the final percentages of a successful call sum to 100. -/
theorem tally_invariant (solve : MonteCarlo.SolveFn) (winners : MonteCarlo.WinnersFn)
    (rand : MonteCarlo.RandFn) (knownCards remainingDeck : List String)
    (iterations : Nat) :
    (∀ (cls : Nat → Option MonteCarlo.IterResult) (acc : MonteCarlo.BatchTotals)
      (i : Nat),
      (MonteCarlo.batchStep cls acc i).wins + (MonteCarlo.batchStep cls acc i).ties +
          (MonteCarlo.batchStep cls acc i).losses =
        acc.wins + acc.ties + acc.losses +
          (if (cls i).isSome then 1 else 0) ∧
      (MonteCarlo.batchStep cls acc i).processed =
        acc.processed + (if (cls i).isSome then 1 else 0)) ∧
    (∀ B, (MonteCarlo.simTotalsUpTo solve winners rand knownCards remainingDeck
          iterations B).wins +
        (MonteCarlo.simTotalsUpTo solve winners rand knownCards remainingDeck
          iterations B).ties +
        (MonteCarlo.simTotalsUpTo solve winners rand knownCards remainingDeck
          iterations B).losses =
        (MonteCarlo.simTotalsUpTo solve winners rand knownCards remainingDeck
          iterations B).processed) ∧
    ((MonteCarlo.simTotals solve winners rand knownCards remainingDeck
          iterations).wins +
        (MonteCarlo.simTotals solve winners rand knownCards remainingDeck
          iterations).ties +
        (MonteCarlo.simTotals solve winners rand knownCards remainingDeck
          iterations).losses =
        (MonteCarlo.simTotals solve winners rand knownCards remainingDeck
          iterations).processed) ∧
    (∀ r, MonteCarlo.monteCarloSimulation solve winners rand knownCards iterations =
      .ok r → r.win + r.tie + r.lose = 100) := by
  refine ⟨?_, ?_, ?_, ?_⟩
  · intro cls acc i
    constructor
    · rw [MonteCarlo.batchStep_wins, MonteCarlo.batchStep_ties,
        MonteCarlo.batchStep_losses]
      rcases hc : cls i with - | v
      · simp [hc]
      · cases v <;> simp [hc] <;> omega
    · rw [MonteCarlo.batchStep_processed]
  · intro B
    exact MonteCarlo.simTotalsUpTo_inv solve winners rand knownCards remainingDeck
      iterations B
  · exact MonteCarlo.simTotals_inv solve winners rand knownCards remainingDeck
      iterations
  · intro r h
    exact MonteCarlo.monteCarloSimulation_ok_sum solve winners rand knownCards
      iterations r h

theorem tally_invariant_witness :
    (⟨((MonteCarlo.simTotals (fun _ => .ok 0) (fun _ => .ok [0]) (fun _ _ => 0)
        ["Ah", "Ad"] (MonteCarlo.remainingDeckOf ["Ah", "Ad"]) 1).wins : ℚ) / ((MonteCarlo.simTotals (fun _ => .ok 0) (fun _ => .ok [0]) (fun _ _ => 0)
        ["Ah", "Ad"] (MonteCarlo.remainingDeckOf ["Ah", "Ad"]) 1).processed : ℚ) * 100,
        ((MonteCarlo.simTotals (fun _ => .ok 0) (fun _ => .ok [0]) (fun _ _ => 0)
        ["Ah", "Ad"] (MonteCarlo.remainingDeckOf ["Ah", "Ad"]) 1).ties : ℚ) / ((MonteCarlo.simTotals (fun _ => .ok 0) (fun _ => .ok [0]) (fun _ _ => 0)
        ["Ah", "Ad"] (MonteCarlo.remainingDeckOf ["Ah", "Ad"]) 1).processed : ℚ) * 100,
        ((MonteCarlo.simTotals (fun _ => .ok 0) (fun _ => .ok [0]) (fun _ _ => 0)
        ["Ah", "Ad"] (MonteCarlo.remainingDeckOf ["Ah", "Ad"]) 1).losses : ℚ) / ((MonteCarlo.simTotals (fun _ => .ok 0) (fun _ => .ok [0]) (fun _ _ => 0)
        ["Ah", "Ad"] (MonteCarlo.remainingDeckOf ["Ah", "Ad"]) 1).processed : ℚ) * 100,
        (MonteCarlo.simTotals (fun _ => .ok 0) (fun _ => .ok [0]) (fun _ _ => 0)
        ["Ah", "Ad"] (MonteCarlo.remainingDeckOf ["Ah", "Ad"]) 1).processed⟩ : MonteCarlo.SimulationResult).win + (⟨((MonteCarlo.simTotals (fun _ => .ok 0) (fun _ => .ok [0]) (fun _ _ => 0)
        ["Ah", "Ad"] (MonteCarlo.remainingDeckOf ["Ah", "Ad"]) 1).wins : ℚ) / ((MonteCarlo.simTotals (fun _ => .ok 0) (fun _ => .ok [0]) (fun _ _ => 0)
        ["Ah", "Ad"] (MonteCarlo.remainingDeckOf ["Ah", "Ad"]) 1).processed : ℚ) * 100,
        ((MonteCarlo.simTotals (fun _ => .ok 0) (fun _ => .ok [0]) (fun _ _ => 0)
        ["Ah", "Ad"] (MonteCarlo.remainingDeckOf ["Ah", "Ad"]) 1).ties : ℚ) / ((MonteCarlo.simTotals (fun _ => .ok 0) (fun _ => .ok [0]) (fun _ _ => 0)
        ["Ah", "Ad"] (MonteCarlo.remainingDeckOf ["Ah", "Ad"]) 1).processed : ℚ) * 100,
        ((MonteCarlo.simTotals (fun _ => .ok 0) (fun _ => .ok [0]) (fun _ _ => 0)
        ["Ah", "Ad"] (MonteCarlo.remainingDeckOf ["Ah", "Ad"]) 1).losses : ℚ) / ((MonteCarlo.simTotals (fun _ => .ok 0) (fun _ => .ok [0]) (fun _ _ => 0)
        ["Ah", "Ad"] (MonteCarlo.remainingDeckOf ["Ah", "Ad"]) 1).processed : ℚ) * 100,
        (MonteCarlo.simTotals (fun _ => .ok 0) (fun _ => .ok [0]) (fun _ _ => 0)
        ["Ah", "Ad"] (MonteCarlo.remainingDeckOf ["Ah", "Ad"]) 1).processed⟩ : MonteCarlo.SimulationResult).tie + (⟨((MonteCarlo.simTotals (fun _ => .ok 0) (fun _ => .ok [0]) (fun _ _ => 0)
        ["Ah", "Ad"] (MonteCarlo.remainingDeckOf ["Ah", "Ad"]) 1).wins : ℚ) / ((MonteCarlo.simTotals (fun _ => .ok 0) (fun _ => .ok [0]) (fun _ _ => 0)
        ["Ah", "Ad"] (MonteCarlo.remainingDeckOf ["Ah", "Ad"]) 1).processed : ℚ) * 100,
        ((MonteCarlo.simTotals (fun _ => .ok 0) (fun _ => .ok [0]) (fun _ _ => 0)
        ["Ah", "Ad"] (MonteCarlo.remainingDeckOf ["Ah", "Ad"]) 1).ties : ℚ) / ((MonteCarlo.simTotals (fun _ => .ok 0) (fun _ => .ok [0]) (fun _ _ => 0)
        ["Ah", "Ad"] (MonteCarlo.remainingDeckOf ["Ah", "Ad"]) 1).processed : ℚ) * 100,
        ((MonteCarlo.simTotals (fun _ => .ok 0) (fun _ => .ok [0]) (fun _ _ => 0)
        ["Ah", "Ad"] (MonteCarlo.remainingDeckOf ["Ah", "Ad"]) 1).losses : ℚ) / ((MonteCarlo.simTotals (fun _ => .ok 0) (fun _ => .ok [0]) (fun _ _ => 0)
        ["Ah", "Ad"] (MonteCarlo.remainingDeckOf ["Ah", "Ad"]) 1).processed : ℚ) * 100,
        (MonteCarlo.simTotals (fun _ => .ok 0) (fun _ => .ok [0]) (fun _ _ => 0)
        ["Ah", "Ad"] (MonteCarlo.remainingDeckOf ["Ah", "Ad"]) 1).processed⟩ : MonteCarlo.SimulationResult).lose = 100 :=
  (tally_invariant (fun _ => .ok 0) (fun _ => .ok [0]) (fun _ _ => 0) ["Ah", "Ad"]
      (MonteCarlo.remainingDeckOf ["Ah", "Ad"]) 1).2.2.2 _
    (MonteCarlo.monteCarloSimulation_eq_ok (fun _ => .ok 0) (fun _ => .ok [0])
      (fun _ _ => 0) ["Ah", "Ad"] 1 (by decide) (by decide) (by decide) (by decide)
      (by decide) (by decide))

/-- C1: the `monteCarloSimulation` of `src/utils/monteCarlo.ts` returns a
`SimulationResult` that is fully determined by its four fields `win`,
`tie`, `lose`, `iterations` — it carries no confidence component, although
the call succeeds — while the legacy variant of the module returns
`confidence = calculateConfidence validCount`, an integer within
`[75, 95] ⊆ [0, 100]` derived solely from the valid-iteration count and
monotone in it, as the specification describes. -/
theorem confidence_field_divergence :
    (MonteCarlo.monteCarloSimulation (fun _ => .ok 0) (fun _ => .ok [0]) (fun _ _ => 0)
        ["Ah", "Ad"] 1).isOk = true ∧
    (∀ r s : MonteCarlo.SimulationResult, r.win = s.win → r.tie = s.tie →
      r.lose = s.lose → r.iterations = s.iterations → r = s) ∧
    (∀ (solve : MonteCarlo.SolveFn) (winners : MonteCarlo.WinnersFn)
      (rand : MonteCarlo.RandFn) (knownCards : List String) (iterations : Nat)
      (r : V3.SimulationResult),
      V3.monteCarloSimulation solve winners rand knownCards iterations = .ok r →
        r.confidence = V3.calculateConfidence r.iterations) ∧
    (∀ n, 75 ≤ V3.calculateConfidence n ∧ V3.calculateConfidence n ≤ 100) ∧
    (∀ m k, V3.calculateConfidence m ≤ V3.calculateConfidence (m + k)) := by
  refine ⟨by decide, ?_, ?_, ?_, ?_⟩
  · intro r s h1 h2 h3 h4
    cases r
    cases s
    simp only [MonteCarlo.SimulationResult.mk.injEq]
    exact ⟨h1, h2, h3, h4⟩
  · intro solve winners rand knownCards iterations r h
    exact V3.legacySimulation_ok_elim solve winners rand knownCards iterations r h
  · intro n
    exact ⟨V3.calculateConfidence_ge n, V3.calculateConfidence_le n⟩
  · intro m k
    exact V3.calculateConfidence_mono m k

theorem confidence_field_divergence_witness :
    ((⟨1, 2, 3, 4⟩ : MonteCarlo.SimulationResult) =
        (⟨1, 2, 3, 4⟩ : MonteCarlo.SimulationResult)) ∧
      (⟨((V3.simTotals (fun _ => .ok 0) (fun _ => .ok [0]) (fun _ _ => 0)
        ["Ah", "Ad"] (V3.remainingDeckOf ["Ah", "Ad"]) 1).wins : ℚ) / ((V3.simTotals (fun _ => .ok 0) (fun _ => .ok [0]) (fun _ _ => 0)
        ["Ah", "Ad"] (V3.remainingDeckOf ["Ah", "Ad"]) 1).processed : ℚ) * 100,
        ((V3.simTotals (fun _ => .ok 0) (fun _ => .ok [0]) (fun _ _ => 0)
        ["Ah", "Ad"] (V3.remainingDeckOf ["Ah", "Ad"]) 1).ties : ℚ) / ((V3.simTotals (fun _ => .ok 0) (fun _ => .ok [0]) (fun _ _ => 0)
        ["Ah", "Ad"] (V3.remainingDeckOf ["Ah", "Ad"]) 1).processed : ℚ) * 100,
        ((V3.simTotals (fun _ => .ok 0) (fun _ => .ok [0]) (fun _ _ => 0)
        ["Ah", "Ad"] (V3.remainingDeckOf ["Ah", "Ad"]) 1).losses : ℚ) / ((V3.simTotals (fun _ => .ok 0) (fun _ => .ok [0]) (fun _ _ => 0)
        ["Ah", "Ad"] (V3.remainingDeckOf ["Ah", "Ad"]) 1).processed : ℚ) * 100,
        (V3.simTotals (fun _ => .ok 0) (fun _ => .ok [0]) (fun _ _ => 0)
        ["Ah", "Ad"] (V3.remainingDeckOf ["Ah", "Ad"]) 1).processed,
        V3.calculateConfidence ((V3.simTotals (fun _ => .ok 0) (fun _ => .ok [0]) (fun _ _ => 0)
        ["Ah", "Ad"] (V3.remainingDeckOf ["Ah", "Ad"]) 1).processed)⟩ : V3.SimulationResult).confidence = V3.calculateConfidence (⟨((V3.simTotals (fun _ => .ok 0) (fun _ => .ok [0]) (fun _ _ => 0)
        ["Ah", "Ad"] (V3.remainingDeckOf ["Ah", "Ad"]) 1).wins : ℚ) / ((V3.simTotals (fun _ => .ok 0) (fun _ => .ok [0]) (fun _ _ => 0)
        ["Ah", "Ad"] (V3.remainingDeckOf ["Ah", "Ad"]) 1).processed : ℚ) * 100,
        ((V3.simTotals (fun _ => .ok 0) (fun _ => .ok [0]) (fun _ _ => 0)
        ["Ah", "Ad"] (V3.remainingDeckOf ["Ah", "Ad"]) 1).ties : ℚ) / ((V3.simTotals (fun _ => .ok 0) (fun _ => .ok [0]) (fun _ _ => 0)
        ["Ah", "Ad"] (V3.remainingDeckOf ["Ah", "Ad"]) 1).processed : ℚ) * 100,
        ((V3.simTotals (fun _ => .ok 0) (fun _ => .ok [0]) (fun _ _ => 0)
        ["Ah", "Ad"] (V3.remainingDeckOf ["Ah", "Ad"]) 1).losses : ℚ) / ((V3.simTotals (fun _ => .ok 0) (fun _ => .ok [0]) (fun _ _ => 0)
        ["Ah", "Ad"] (V3.remainingDeckOf ["Ah", "Ad"]) 1).processed : ℚ) * 100,
        (V3.simTotals (fun _ => .ok 0) (fun _ => .ok [0]) (fun _ _ => 0)
        ["Ah", "Ad"] (V3.remainingDeckOf ["Ah", "Ad"]) 1).processed,
        V3.calculateConfidence ((V3.simTotals (fun _ => .ok 0) (fun _ => .ok [0]) (fun _ _ => 0)
        ["Ah", "Ad"] (V3.remainingDeckOf ["Ah", "Ad"]) 1).processed)⟩ : V3.SimulationResult).iterations ∧
      (75 ≤ V3.calculateConfidence 1 ∧ V3.calculateConfidence 1 ≤ 100) ∧
      V3.calculateConfidence 250 ≤ V3.calculateConfidence (250 + 750) :=
  ⟨confidence_field_divergence.2.1 ⟨1, 2, 3, 4⟩ ⟨1, 2, 3, 4⟩ rfl rfl rfl rfl,
   confidence_field_divergence.2.2.1 (fun _ => .ok 0) (fun _ => .ok [0]) (fun _ _ => 0)
     ["Ah", "Ad"] 1 _
     (V3.legacySimulation_eq_ok (fun _ => .ok 0) (fun _ => .ok [0]) (fun _ _ => 0)
       ["Ah", "Ad"] 1 (by decide) (by decide) (by decide) (by decide)),
   confidence_field_divergence.2.2.2.1 1,
   confidence_field_divergence.2.2.2.2 250 750⟩
